import Mathlib

set_option maxRecDepth 16384

/-!
Verification of the calorie-tracker CSV codec, import pipeline and statistics
engine, shallowly embedded from `src/components/CalorieTracker.tsx`.

Conventions of the embedding:
* JS strings are `List Char`; JS numbers arising in this code are either
  mathematical integers or `NaN`, modelled as `Option Int` (`none` = NaN /
  non-finite); exact rationals (`Rat`) stand in for the floating-point
  intermediate results of the statistics arithmetic.
* Browser / standard-library primitives that the component calls
  (`String.prototype.trim`, `toLowerCase`, `parseInt`, `Date.parse` of the
  ISO format, `Date.prototype.toISOString`) are modelled after their
  specified behaviour on the values this program feeds them.
* `crypto.randomUUID` ids are opaque, never serialized by the codec and
  regenerated on import; they are omitted from the entry model.
-/

/-- Whitespace recognised by the model of `String.prototype.trim`:
the ASCII whitespace characters plus the Unicode space separators,
line separators and the BOM that JS `trim` also strips. -/
def isWsChar (c : Char) : Bool :=
  c = '\t' ∨ c = ' ' ∨ c = '\x0b' ∨ c = '\x0c' ∨ c = '\n' ∨ c = '\r' ∨
  c = '\u00A0' ∨ c = '\u1680' ∨ ('\u2000' ≤ c ∧ c ≤ '\u200A') ∨ c = '\u2028' ∨
  c = '\u2029' ∨ c = '\u202F' ∨ c = '\u205F' ∨ c = '\u3000' ∨ c = '\uFEFF'

/-- Model of `String.prototype.trim`: strip leading and trailing whitespace. -/
def trimL (s : List Char) : List Char :=
  ((s.dropWhile isWsChar).reverse.dropWhile isWsChar).reverse

/-- Model of `String.prototype.toLowerCase` (ASCII range suffices here). -/
def toLowerL (s : List Char) : List Char :=
  s.map Char.toLower

/-- Decimal digit character for a value `0 ≤ d ≤ 9`. -/
def digitChar : Nat → Char
  | 0 => '0' | 1 => '1' | 2 => '2' | 3 => '3' | 4 => '4'
  | 5 => '5' | 6 => '6' | 7 => '7' | 8 => '8' | _ => '9'

/-- Numeric value of a decimal digit character. -/
def digitVal (c : Char) : Nat :=
  c.toNat - 48

theorem digitVal_digitChar {d : Nat} (h : d < 10) : digitVal (digitChar d) = d := by
  interval_cases d <;> rfl

theorem isDigit_digitChar {d : Nat} (h : d < 10) : (digitChar d).isDigit = true := by
  interval_cases d <;> rfl

theorem not_isWs_digitChar {d : Nat} (h : d < 10) : isWsChar (digitChar d) = false := by
  interval_cases d <;> rfl

/-- Decimal digit expansion (most significant first); fuel-structured so that
it is structurally recursive (and hence kernel-reducible). -/
def natDigitsAux : Nat → Nat → List Char
  | 0, _ => []
  | fuel + 1, n =>
    if n < 10 then [digitChar n]
    else natDigitsAux fuel (n / 10) ++ [digitChar (n % 10)]

/-- Decimal representation of a natural number, as produced by JS number
to-string conversion for integral values. -/
def natDigits (n : Nat) : List Char :=
  natDigitsAux (n + 1) n

/-- Value of a list of decimal digit characters, most significant first. -/
def digitsToNat (ds : List Char) : Nat :=
  ds.foldl (fun acc c => acc * 10 + digitVal c) 0

theorem digitsToNat_append_cons (ds : List Char) (c : Char) :
    digitsToNat (ds ++ [c]) = digitsToNat ds * 10 + digitVal c := by
  simp [digitsToNat, List.foldl_append]

theorem natDigitsAux_spec :
    ∀ fuel n, n < fuel →
      digitsToNat (natDigitsAux fuel n) = n ∧
      natDigitsAux fuel n ≠ [] ∧
      ∀ c ∈ natDigitsAux fuel n, c.isDigit = true ∧ isWsChar c = false := by
  intro fuel
  induction fuel with
  | zero => intro n h; omega
  | succ fuel ih =>
    intro n h
    by_cases h10 : n < 10
    · refine ⟨?_, ?_, ?_⟩
      · simp [natDigitsAux, h10, digitsToNat, digitVal_digitChar h10]
      · simp [natDigitsAux, h10]
      · intro c hc
        simp [natDigitsAux, h10] at hc
        subst hc
        exact ⟨isDigit_digitChar h10, not_isWs_digitChar h10⟩
    · have hrec : n / 10 < fuel := by omega
      obtain ⟨hv, hne, hd⟩ := ih (n / 10) hrec
      refine ⟨?_, ?_, ?_⟩
      · simp only [natDigitsAux, if_neg h10]
        rw [digitsToNat_append_cons, hv, digitVal_digitChar (by omega)]
        omega
      · simp [natDigitsAux, h10]
      · intro c hc
        simp only [natDigitsAux, if_neg h10, List.mem_append, List.mem_singleton] at hc
        rcases hc with hc | hc
        · exact hd c hc
        · subst hc
          exact ⟨isDigit_digitChar (by omega), not_isWs_digitChar (by omega)⟩

theorem digitsToNat_natDigits (n : Nat) : digitsToNat (natDigits n) = n :=
  (natDigitsAux_spec (n + 1) n (by omega)).1

theorem natDigits_ne_nil (n : Nat) : natDigits n ≠ [] :=
  (natDigitsAux_spec (n + 1) n (by omega)).2.1

theorem natDigits_all_digit (n : Nat) :
    ∀ c ∈ natDigits n, c.isDigit = true ∧ isWsChar c = false :=
  (natDigitsAux_spec (n + 1) n (by omega)).2.2

/-- Model of JS string conversion of an integral number (`String(z)`). -/
def intToString (z : Int) : List Char :=
  if z < 0 then '-' :: natDigits z.natAbs else natDigits z.toNat

/-- Longest leading run of decimal digits, as a value; `none` if the string
does not start with a digit. -/
def leadingDigitsVal (s : List Char) : Option Nat :=
  let ds := s.takeWhile Char.isDigit
  if ds = [] then none else some (digitsToNat ds)

/-- The IEEE-754 double overflow boundary: a decimal value whose magnitude
is at least `2^1024 - 2^970` (the midpoint above the largest finite double)
rounds to `Infinity` under round-half-even, so `Number.parseInt` of a digit
run that large returns a non-finite value. -/
def jsOverflowBound : Nat := 2 ^ 1024 - 2 ^ 970

/-- Model of `Number.parseInt(s, 10)` on an already-trimmed string: an
optional sign followed by at least one decimal digit yields the value of the
longest digit run (any trailing junk is ignored); no leading digit gives NaN
(`none`), and a digit run at or above the double overflow boundary gives
`Infinity` — also `none`, this model's single non-finite marker.  (IEEE
rounding of finite values above `2^53` alters stored magnitudes, not any
accept/reject decision, and is not modelled.) -/
def jsParseInt (s : List Char) : Option Int :=
  match s with
  | [] => none
  | c :: rest =>
    if c = '-' then
      (leadingDigitsVal rest).bind
        (fun v => if v < jsOverflowBound then some (-(v : Int)) else none)
    else if c = '+' then
      (leadingDigitsVal rest).bind
        (fun v => if v < jsOverflowBound then some ((v : Int)) else none)
    else
      (leadingDigitsVal (c :: rest)).bind
        (fun v => if v < jsOverflowBound then some ((v : Int)) else none)

theorem takeWhile_eq_self_of_all {p : Char → Bool} :
    ∀ {l : List Char}, (∀ c ∈ l, p c = true) → l.takeWhile p = l := by
  intro l
  induction l with
  | nil => intro _; rfl
  | cons c cs ih =>
    intro h
    simp only [List.takeWhile_cons, h c (by simp)]
    simp [ih (fun x hx => h x (by simp [hx]))]

theorem leadingDigitsVal_natDigits (n : Nat) :
    leadingDigitsVal (natDigits n) = some n := by
  unfold leadingDigitsVal
  rw [takeWhile_eq_self_of_all (fun c hc => (natDigits_all_digit n c hc).1)]
  simp [natDigits_ne_nil n, digitsToNat_natDigits n]

theorem jsParseInt_intToString (z : Int) (hbound : z.natAbs < jsOverflowBound) :
    jsParseInt (intToString z) = some z := by
  by_cases hz : z < 0
  · have h1 : intToString z = '-' :: natDigits z.natAbs := by
      simp [intToString, hz]
    rw [h1]
    show (leadingDigitsVal (natDigits z.natAbs)).bind
      (fun v => if v < jsOverflowBound then some (-(v : Int)) else none) = some z
    rw [leadingDigitsVal_natDigits]
    show (if z.natAbs < jsOverflowBound then some (-(z.natAbs : Int)) else none) = some z
    rw [if_pos hbound]
    congr 1
    omega
  · have h1 : intToString z = natDigits z.toNat := by
      simp [intToString, hz]
    rw [h1]
    match hm : natDigits z.toNat with
    | [] => exact absurd hm (natDigits_ne_nil _)
    | c :: rest =>
      have hcd : c.isDigit = true :=
        (natDigits_all_digit z.toNat c (by rw [hm]; simp)).1
      have hminus : c ≠ '-' := by rintro rfl; simp [Char.isDigit] at hcd
      have hplus : c ≠ '+' := by rintro rfl; simp [Char.isDigit] at hcd
      show jsParseInt (c :: rest) = some z
      simp only [jsParseInt, if_neg hminus, if_neg hplus]
      rw [← hm, leadingDigitsVal_natDigits]
      show (if z.toNat < jsOverflowBound then some ((z.toNat : Nat) : Int) else none) = some z
      rw [if_pos (by omega)]
      congr 1
      omega

/-! ### Calendar arithmetic

`Date.prototype.toISOString` and ISO-8601 `Date` parsing convert between an
epoch-millisecond timestamp and a civil (proleptic Gregorian, UTC) date.
The conversions below are the standard era-based civil-calendar algorithms,
decomposing a day-of-era into century / four-year-block / year. -/

/-- Year-of-era (`0..399`) and March-based day-of-year (`0..365`) of a
day-of-era (`0..146096`). -/
def yoeDoy (doe : Int) : Int × Int :=
  let c := if doe / 36524 < 3 then doe / 36524 else 3
  let dcent := doe - c * 36524
  let q := dcent / 1461
  let dq := dcent - q * 1461
  let y1 := if dq / 365 < 3 then dq / 365 else 3
  (c * 100 + q * 4 + y1, dq - y1 * 365)

theorem yoeAssemble (c q y1 dq doe : Int)
    (hq1 : 0 ≤ q) (hq2 : q ≤ 24)
    (hy1 : 0 ≤ y1) (hy2 : y1 ≤ 3)
    (hsum : c * 36524 + q * 1461 + dq = doe) :
    (c * 100 + q * 4 + y1) * 365 + (c * 100 + q * 4 + y1) / 4
      - (c * 100 + q * 4 + y1) / 100 + (dq - y1 * 365) = doe := by
  have h4 : (c * 100 + q * 4 + y1) / 4 = c * 25 + q := by omega
  have h100 : (c * 100 + q * 4 + y1) / 100 = c := by omega
  omega

theorem yoeDoy_spec (doe : Int) (h1 : 0 ≤ doe) (h2 : doe < 146097) :
    0 ≤ (yoeDoy doe).1 ∧ (yoeDoy doe).1 ≤ 399 ∧
    0 ≤ (yoeDoy doe).2 ∧ (yoeDoy doe).2 ≤ 365 ∧
    (yoeDoy doe).1 * 365 + (yoeDoy doe).1 / 4 - (yoeDoy doe).1 / 100 + (yoeDoy doe).2 = doe ∧
    (146037 ≤ doe → (yoeDoy doe).1 = 399 ∧ 306 ≤ (yoeDoy doe).2) ∧
    ((yoeDoy doe).1 = 399 → 306 ≤ (yoeDoy doe).2 → 146037 ≤ doe) := by
  unfold yoeDoy
  dsimp only
  split_ifs <;>
    refine ⟨?_, ?_, ?_, ?_, yoeAssemble _ _ _ _ _ ?_ ?_ ?_ ?_ ?_, ?_, ?_⟩ <;> omega

/-- Month (`1..12`) and day-of-month (`1..31`) from a March-based
day-of-year. -/
def monthDayFromDoy (doy : Int) : Int × Int :=
  let mp := (5 * doy + 2) / 153
  (mp + (if mp < 10 then 3 else -9), doy - (153 * mp + 2) / 5 + 1)

theorem monthDayFromDoy_spec (doy : Int) (h1 : 0 ≤ doy) (h2 : doy ≤ 365) :
    1 ≤ (monthDayFromDoy doy).1 ∧ (monthDayFromDoy doy).1 ≤ 12 ∧
    1 ≤ (monthDayFromDoy doy).2 ∧ (monthDayFromDoy doy).2 ≤ 31 ∧
    (153 * ((monthDayFromDoy doy).1 + (if 2 < (monthDayFromDoy doy).1 then -3 else 9)) + 2) / 5
      + (monthDayFromDoy doy).2 - 1 = doy ∧
    ((monthDayFromDoy doy).1 ≤ 2 ↔ 10 ≤ (5 * doy + 2) / 153) := by
  unfold monthDayFromDoy
  dsimp only
  split_ifs <;> constructor <;> try omega

/-- Civil date `(year, month, day)` of an epoch day number. -/
def civilFromDays (z : Int) : Int × Int × Int :=
  let z' := z + 719468
  let era := z' / 146097
  let doe := z' - era * 146097
  let yd := yoeDoy doe
  let md := monthDayFromDoy yd.2
  (yd.1 + era * 400 + (if md.1 ≤ 2 then 1 else 0), md.1, md.2)

/-- Epoch day number of a civil date `(year, month, day)`. -/
def daysFromCivil (y m d : Int) : Int :=
  let y' := y - (if m ≤ 2 then 1 else 0)
  let era := y' / 400
  let yoe := y' - era * 400
  let doy := (153 * (m + (if 2 < m then -3 else 9)) + 2) / 5 + d - 1
  let doe := yoe * 365 + yoe / 4 - yoe / 100 + doy
  era * 146097 + doe - 719468

theorem daysFromCivil_civilFromDays (z : Int) :
    daysFromCivil (civilFromDays z).1 (civilFromDays z).2.1 (civilFromDays z).2.2 = z := by
  have hdoe1 : 0 ≤ z + 719468 - (z + 719468) / 146097 * 146097 := by omega
  have hdoe2 : z + 719468 - (z + 719468) / 146097 * 146097 < 146097 := by omega
  obtain ⟨hy1, hy2, hd1, hd2, hrec, _, _⟩ := yoeDoy_spec _ hdoe1 hdoe2
  obtain ⟨hm1, hm2, hdd1, hdd2, hmrec, _⟩ :=
    monthDayFromDoy_spec (yoeDoy (z + 719468 - (z + 719468) / 146097 * 146097)).2 hd1 hd2
  unfold civilFromDays daysFromCivil
  dsimp only
  set doe := z + 719468 - (z + 719468) / 146097 * 146097 with hdoeDef
  set era := (z + 719468) / 146097 with heraDef
  set yoe := (yoeDoy doe).1 with hyoeDef
  set doy := (yoeDoy doe).2 with hdoyDef
  set m := (monthDayFromDoy doy).1 with hmDef
  set dd := (monthDayFromDoy doy).2 with hddDef
  have hcancel : yoe + era * 400 + (if m ≤ 2 then 1 else 0) - (if m ≤ 2 then 1 else 0)
      = yoe + era * 400 := by omega
  rw [hcancel]
  have hera2 : (yoe + era * 400) / 400 = era := by omega
  rw [hera2]
  have hyoe2 : yoe + era * 400 - era * 400 = yoe := by omega
  rw [hyoe2]
  omega

theorem civilFromDays_month_day_bounds (z : Int) :
    1 ≤ (civilFromDays z).2.1 ∧ (civilFromDays z).2.1 ≤ 12 ∧
    1 ≤ (civilFromDays z).2.2 ∧ (civilFromDays z).2.2 ≤ 31 := by
  have hdoe1 : 0 ≤ z + 719468 - (z + 719468) / 146097 * 146097 := by omega
  have hdoe2 : z + 719468 - (z + 719468) / 146097 * 146097 < 146097 := by omega
  obtain ⟨hy1, hy2, hd1, hd2, hrec, _, _⟩ := yoeDoy_spec _ hdoe1 hdoe2
  obtain ⟨hm1, hm2, hdd1, hdd2, _, _⟩ :=
    monthDayFromDoy_spec (yoeDoy (z + 719468 - (z + 719468) / 146097 * 146097)).2 hd1 hd2
  unfold civilFromDays
  dsimp only
  exact ⟨hm1, hm2, hdd1, hdd2⟩

theorem civilFromDays_year_range (z : Int) (h1 : -719528 ≤ z) (h2 : z ≤ 2932896) :
    0 ≤ (civilFromDays z).1 ∧ (civilFromDays z).1 ≤ 9999 := by
  have hdoe1 : 0 ≤ z + 719468 - (z + 719468) / 146097 * 146097 := by omega
  have hdoe2 : z + 719468 - (z + 719468) / 146097 * 146097 < 146097 := by omega
  obtain ⟨hy1, hy2, hd1, hd2, hrec, hbig, hbigrev⟩ := yoeDoy_spec _ hdoe1 hdoe2
  obtain ⟨hm1, hm2, hdd1, hdd2, hmrec, hiff⟩ :=
    monthDayFromDoy_spec (yoeDoy (z + 719468 - (z + 719468) / 146097 * 146097)).2 hd1 hd2
  unfold civilFromDays
  dsimp only
  set doe := z + 719468 - (z + 719468) / 146097 * 146097 with hdoeDef
  set era := (z + 719468) / 146097 with heraDef
  set yoe := (yoeDoy doe).1 with hyoeDef
  set doy := (yoeDoy doe).2 with hdoyDef
  set m := (monthDayFromDoy doy).1 with hmDef
  by_cases hdoeBig : 146037 ≤ doe
  · obtain ⟨hyoe399, hdoy306⟩ := hbig hdoeBig
    have hm2le : m ≤ 2 := hiff.mpr (by omega)
    simp only [if_pos hm2le]
    omega
  · by_cases hm2le : m ≤ 2
    · have hi : 10 ≤ (5 * doy + 2) / 153 := hiff.mp hm2le
      have hdoy : 306 ≤ doy := by omega
      have hyoele : yoe ≤ 398 := by
        by_contra hgt
        exact hdoeBig (hbigrev (by omega) hdoy)
      simp only [if_pos hm2le]
      omega
    · simp only [if_neg hm2le]
      have hyoeNot : ¬ (yoe = 399 ∧ 306 ≤ doy) := by
        rintro ⟨ha, hb⟩
        exact hdoeBig (hbigrev ha hb)
      omega

/-! ### ISO-8601 timestamp strings -/

/-- Two-digit zero-padded decimal rendering. -/
def pad2 (n : Nat) : List Char := [digitChar (n / 10 % 10), digitChar (n % 10)]

/-- Three-digit zero-padded decimal rendering. -/
def pad3 (n : Nat) : List Char :=
  [digitChar (n / 100 % 10), digitChar (n / 10 % 10), digitChar (n % 10)]

/-- Four-digit zero-padded decimal rendering. -/
def pad4 (n : Nat) : List Char :=
  [digitChar (n / 1000 % 10), digitChar (n / 100 % 10), digitChar (n / 10 % 10),
   digitChar (n % 10)]

/-- Six-digit zero-padded decimal rendering (the expanded-year format). -/
def pad6 (n : Nat) : List Char :=
  [digitChar (n / 100000 % 10), digitChar (n / 10000 % 10), digitChar (n / 1000 % 10),
   digitChar (n / 100 % 10), digitChar (n / 10 % 10), digitChar (n % 10)]

/-- The year field written by `toISOString`: plain four digits for years
`0..9999`, otherwise the expanded six-digit form with a mandatory sign. -/
def yearStr (y : Int) : List Char :=
  if 0 ≤ y ∧ y ≤ 9999 then pad4 y.toNat
  else if y < 0 then '-' :: pad6 y.natAbs
  else '+' :: pad6 y.toNat

/-- Assemble the `<year>-MM-DDTHH:MM:SS.mmmZ` string. -/
def mkISO (ys : List Char) (mo d hh mi ss ff : Nat) : List Char :=
  ys ++ '-' :: pad2 mo ++ '-' :: pad2 d ++
    'T' :: pad2 hh ++ ':' :: pad2 mi ++ ':' :: pad2 ss ++ '.' :: pad3 ff ++ ['Z']

/-- A time value accepted by the ECMAScript TimeClip operation: at most
`8.64e15` milliseconds from the epoch.  Every timestamp a `Date` can hold —
hence every timestamp the program can store or serialize — satisfies
this. -/
def tsClipped (t : Int) : Prop := t.natAbs ≤ 8640000000000000

instance : DecidablePred tsClipped := fun t =>
  inferInstanceAs (Decidable (_ ≤ _))

/-- Model of `Date.prototype.toISOString` on an epoch-millisecond
timestamp.  On a NaN or non-TimeClipped time the real method throws a
RangeError instead; the formula below still evaluates there, so every call
site is conditioned on finiteness and `tsClipped`. -/
def toISO (t : Int) : List Char :=
  let days := t / 86400000
  let ms := (t % 86400000).toNat
  mkISO (yearStr (civilFromDays days).1) (civilFromDays days).2.1.toNat
    (civilFromDays days).2.2.toNat
    (ms / 3600000) (ms / 60000 % 60) (ms / 1000 % 60) (ms % 1000)

/-- Read exactly `n` decimal digits off the front of the string into an
accumulated value; fails if any of the first `n` characters is missing or
is not a digit. -/
def readNAux : Nat → Nat → List Char → Option (Nat × List Char)
  | acc, 0, s => some (acc, s)
  | _, _ + 1, [] => none
  | acc, n + 1, c :: s =>
    if c.isDigit then readNAux (acc * 10 + digitVal c) n s else none

/-- `readN n s`: the value of the first `n` characters of `s` as a decimal
number, plus the remainder of `s`. -/
def readN (n : Nat) (s : List Char) : Option (Nat × List Char) :=
  readNAux 0 n s

/-- The ECMAScript TimeClip operation: a computed time value more than
`8.64e15` milliseconds from the epoch is invalid (NaN, here `none`). -/
def timeClip (t : Int) : Option Int :=
  if t.natAbs ≤ 8640000000000000 then some t else none

/-- The year of an ECMAScript date-time string: four digits, or a sign
followed by six digits (the expanded form, in which `-000000` is
excluded). -/
def parseYear (s : List Char) : Option (Int × List Char) :=
  if s.head? = some '+' then
    (readN 6 s.tail).map (fun p => ((p.1 : Int), p.2))
  else if s.head? = some '-' then
    (readN 6 s.tail).bind
      (fun p => if p.1 = 0 then none else some ((-(p.1 : Int)), p.2))
  else (readN 4 s).map (fun p => ((p.1 : Int), p.2))

/-- The optional `-MM[-DD]` part of a date; a missing month or day
defaults to `01`, and out-of-range values are rejected. -/
def parseMonthDay (s : List Char) : Option (Nat × Nat × List Char) :=
  if s.head? = some '-' then
    (readN 2 s.tail).bind (fun p =>
      if 1 ≤ p.1 ∧ p.1 ≤ 12 then
        if p.2.head? = some '-' then
          (readN 2 p.2.tail).bind (fun q =>
            if 1 ≤ q.1 ∧ q.1 ≤ 31 then some (p.1, q.1, q.2) else none)
        else some (p.1, 1, p.2)
      else none)
  else some (1, 1, s)

/-- Range checks on the time components (`24:00:00.000` being the one
permitted use of hour `24`) and their combined value in milliseconds. -/
def hmsValue (hh mi ss ff : Nat) : Option Nat :=
  if mi ≤ 59 ∧ ss ≤ 59 ∧ (hh ≤ 23 ∨ (hh = 24 ∧ mi = 0 ∧ ss = 0 ∧ ff = 0)) then
    some (hh * 3600000 + mi * 60000 + ss * 1000 + ff)
  else none

/-- The optional `:SS[.mmm]` tail of a time of day. -/
def parseSecTail (hh mi : Nat) (s : List Char) : Option (Nat × List Char) :=
  if s.head? = some ':' then
    (readN 2 s.tail).bind (fun p =>
      if p.2.head? = some '.' then
        (readN 3 p.2.tail).bind (fun q =>
          (hmsValue hh mi p.1 q.1).map (fun ms => (ms, q.2)))
      else (hmsValue hh mi p.1 0).map (fun ms => (ms, p.2)))
  else (hmsValue hh mi 0 0).map (fun ms => (ms, s))

/-- The `HH:mm[:SS[.mmm]]` time of day: hours and minutes are mandatory. -/
def parseTime (s : List Char) : Option (Nat × List Char) :=
  (readN 2 s).bind (fun p =>
    if p.2.head? = some ':' then
      (readN 2 p.2.tail).bind (fun q => parseSecTail p.1 q.1 q.2)
    else none)

/-- The time-zone designator closing a date-time: absent (local time; this
model assumes a UTC host, see `parseISO`), `Z`, or a signed `±HH:mm`
offset. -/
def parseOffset (s : List Char) : Option Int :=
  if s = [] then some 0
  else if s = ['Z'] then some 0
  else if s.head? = some '+' ∨ s.head? = some '-' then
    (readN 2 s.tail).bind (fun p =>
      if p.1 ≤ 23 ∧ p.2.head? = some ':' then
        (readN 2 p.2.tail).bind (fun q =>
          if q.1 ≤ 59 ∧ q.2 = [] then
            some ((if s.head? = some '-' then -1 else 1) *
              ((p.1 : Int) * 3600000 + (q.1 : Int) * 60000))
          else none)
      else none)
  else none

/-- Modelled from the spec: the ECMAScript date parser applied to the Time
field of the import file (`new Date(rawTime).getTime()`, a
standard-library routine, not code of this repository).  The model accepts
the Date Time String Format of the language specification — a
`YYYY[-MM[-DD]]` date whose year is in plain four-digit or expanded signed
six-digit form, an optional `THH:mm[:ss[.sss]]` time of day closed by an
optional `Z` or `±HH:mm` designator — applies TimeClip, and yields `none`
(NaN) on everything else.  Two host-dependent points are fixed: a
date-time without a designator is local time and this model assumes a UTC
host, and implementation-specific fallbacks for non-conforming strings are
not modelled. -/
def parseISO (s : List Char) : Option Int :=
  (parseYear s).bind (fun py =>
    (parseMonthDay py.2).bind (fun pmd =>
      if pmd.2.2 = [] then
        timeClip (daysFromCivil py.1 (pmd.1 : Int) (pmd.2.1 : Int) * 86400000)
      else if pmd.2.2.head? = some 'T' then
        (parseTime pmd.2.2.tail).bind (fun pt =>
          (parseOffset pt.2).bind (fun off =>
            timeClip (daysFromCivil py.1 (pmd.1 : Int) (pmd.2.1 : Int) * 86400000
              + (pt.1 : Int) - off)))
      else none))

theorem readNAux_cons (acc n : Nat) (c : Char) (s : List Char) (h : c.isDigit = true) :
    readNAux acc (n + 1) (c :: s) = readNAux (acc * 10 + digitVal c) n s := by
  simp [readNAux, h]

theorem readN_pad2 (n : Nat) (h : n < 100) (rest : List Char) :
    readN 2 (pad2 n ++ rest) = some (n, rest) := by
  show readNAux 0 2 (digitChar (n / 10 % 10) :: digitChar (n % 10) :: rest) = some (n, rest)
  rw [readNAux_cons _ _ _ _ (isDigit_digitChar (Nat.mod_lt _ (by omega))),
    readNAux_cons _ _ _ _ (isDigit_digitChar (Nat.mod_lt _ (by omega))),
    digitVal_digitChar (Nat.mod_lt _ (by omega)), digitVal_digitChar (Nat.mod_lt _ (by omega))]
  show some ((0 * 10 + n / 10 % 10) * 10 + n % 10, rest) = some (n, rest)
  have hrec : (0 * 10 + n / 10 % 10) * 10 + n % 10 = n := by omega
  rw [hrec]

theorem readN_pad3 (n : Nat) (h : n < 1000) (rest : List Char) :
    readN 3 (pad3 n ++ rest) = some (n, rest) := by
  show readNAux 0 3
    (digitChar (n / 100 % 10) :: digitChar (n / 10 % 10) :: digitChar (n % 10) :: rest)
    = some (n, rest)
  rw [readNAux_cons _ _ _ _ (isDigit_digitChar (Nat.mod_lt _ (by omega))),
    readNAux_cons _ _ _ _ (isDigit_digitChar (Nat.mod_lt _ (by omega))),
    readNAux_cons _ _ _ _ (isDigit_digitChar (Nat.mod_lt _ (by omega))),
    digitVal_digitChar (Nat.mod_lt _ (by omega)), digitVal_digitChar (Nat.mod_lt _ (by omega)),
    digitVal_digitChar (Nat.mod_lt _ (by omega))]
  show some (((0 * 10 + n / 100 % 10) * 10 + n / 10 % 10) * 10 + n % 10, rest) = some (n, rest)
  have hrec : ((0 * 10 + n / 100 % 10) * 10 + n / 10 % 10) * 10 + n % 10 = n := by omega
  rw [hrec]

theorem readN_pad4 (n : Nat) (h : n < 10000) (rest : List Char) :
    readN 4 (pad4 n ++ rest) = some (n, rest) := by
  show readNAux 0 4
    (digitChar (n / 1000 % 10) :: digitChar (n / 100 % 10) :: digitChar (n / 10 % 10) ::
      digitChar (n % 10) :: rest) = some (n, rest)
  rw [readNAux_cons _ _ _ _ (isDigit_digitChar (Nat.mod_lt _ (by omega))),
    readNAux_cons _ _ _ _ (isDigit_digitChar (Nat.mod_lt _ (by omega))),
    readNAux_cons _ _ _ _ (isDigit_digitChar (Nat.mod_lt _ (by omega))),
    readNAux_cons _ _ _ _ (isDigit_digitChar (Nat.mod_lt _ (by omega))),
    digitVal_digitChar (Nat.mod_lt _ (by omega)), digitVal_digitChar (Nat.mod_lt _ (by omega)),
    digitVal_digitChar (Nat.mod_lt _ (by omega)), digitVal_digitChar (Nat.mod_lt _ (by omega))]
  show some ((((0 * 10 + n / 1000 % 10) * 10 + n / 100 % 10) * 10 + n / 10 % 10) * 10 + n % 10,
    rest) = some (n, rest)
  have hrec : (((0 * 10 + n / 1000 % 10) * 10 + n / 100 % 10) * 10 + n / 10 % 10) * 10 + n % 10
      = n := by omega
  rw [hrec]

theorem readN_pad6 (n : Nat) (h : n < 1000000) (rest : List Char) :
    readN 6 (pad6 n ++ rest) = some (n, rest) := by
  show readNAux 0 6
    (digitChar (n / 100000 % 10) :: digitChar (n / 10000 % 10) :: digitChar (n / 1000 % 10) ::
      digitChar (n / 100 % 10) :: digitChar (n / 10 % 10) :: digitChar (n % 10) :: rest)
    = some (n, rest)
  rw [readNAux_cons _ _ _ _ (isDigit_digitChar (Nat.mod_lt _ (by omega))),
    readNAux_cons _ _ _ _ (isDigit_digitChar (Nat.mod_lt _ (by omega))),
    readNAux_cons _ _ _ _ (isDigit_digitChar (Nat.mod_lt _ (by omega))),
    readNAux_cons _ _ _ _ (isDigit_digitChar (Nat.mod_lt _ (by omega))),
    readNAux_cons _ _ _ _ (isDigit_digitChar (Nat.mod_lt _ (by omega))),
    readNAux_cons _ _ _ _ (isDigit_digitChar (Nat.mod_lt _ (by omega))),
    digitVal_digitChar (Nat.mod_lt _ (by omega)), digitVal_digitChar (Nat.mod_lt _ (by omega)),
    digitVal_digitChar (Nat.mod_lt _ (by omega)), digitVal_digitChar (Nat.mod_lt _ (by omega)),
    digitVal_digitChar (Nat.mod_lt _ (by omega)), digitVal_digitChar (Nat.mod_lt _ (by omega))]
  show some ((((((0 * 10 + n / 100000 % 10) * 10 + n / 10000 % 10) * 10 + n / 1000 % 10) * 10
    + n / 100 % 10) * 10 + n / 10 % 10) * 10 + n % 10, rest) = some (n, rest)
  have hrec : (((((0 * 10 + n / 100000 % 10) * 10 + n / 10000 % 10) * 10 + n / 1000 % 10) * 10
      + n / 100 % 10) * 10 + n / 10 % 10) * 10 + n % 10 = n := by omega
  rw [hrec]

theorem digitChar_not_sign {d : Nat} (h : d < 10) :
    digitChar d ≠ '+' ∧ digitChar d ≠ '-' := by
  interval_cases d <;> exact ⟨by decide, by decide⟩

theorem parseYear_yearStr (y : Int) (h : y.natAbs ≤ 999999) (rest : List Char) :
    parseYear (yearStr y ++ rest) = some (y, rest) := by
  unfold yearStr
  by_cases h09 : 0 ≤ y ∧ y ≤ 9999
  · rw [if_pos h09]
    have hne := digitChar_not_sign (d := y.toNat / 1000 % 10) (Nat.mod_lt _ (by omega))
    show parseYear (digitChar (y.toNat / 1000 % 10) :: digitChar (y.toNat / 100 % 10) ::
      digitChar (y.toNat / 10 % 10) :: digitChar (y.toNat % 10) :: rest) = some (y, rest)
    unfold parseYear
    rw [if_neg (fun hc => hne.1 (by simpa using hc)),
      if_neg (fun hc => hne.2 (by simpa using hc))]
    show (readN 4 (pad4 y.toNat ++ rest)).map (fun p => ((p.1 : Int), p.2)) = some (y, rest)
    rw [readN_pad4 y.toNat (by omega) rest]
    show some ((y.toNat : Int), rest) = some (y, rest)
    rw [Int.toNat_of_nonneg h09.1]
  · rw [if_neg h09]
    by_cases hneg : y < 0
    · rw [if_pos hneg]
      show parseYear ('-' :: (pad6 y.natAbs ++ rest)) = some (y, rest)
      unfold parseYear
      rw [if_neg (by simp), if_pos (by simp)]
      show (readN 6 (pad6 y.natAbs ++ rest)).bind
        (fun p => if p.1 = 0 then none else some ((-(p.1 : Int)), p.2)) = some (y, rest)
      rw [readN_pad6 y.natAbs (by omega) rest]
      show (if y.natAbs = 0 then none else some ((-(y.natAbs : Int)), rest)) = some (y, rest)
      rw [if_neg (by omega)]
      have hy : -((y.natAbs : Int)) = y := by omega
      rw [hy]
    · rw [if_neg hneg]
      show parseYear ('+' :: (pad6 y.toNat ++ rest)) = some (y, rest)
      unfold parseYear
      rw [if_pos (by simp)]
      show (readN 6 (pad6 y.toNat ++ rest)).map (fun p => ((p.1 : Int), p.2)) = some (y, rest)
      rw [readN_pad6 y.toNat (by omega) rest]
      show some ((y.toNat : Int), rest) = some (y, rest)
      rw [Int.toNat_of_nonneg (by omega)]

theorem parseMonthDay_pads (mo d : Nat) (hmo1 : 1 ≤ mo) (hmo2 : mo ≤ 12)
    (hd1 : 1 ≤ d) (hd2 : d ≤ 31) (rest : List Char) :
    parseMonthDay ('-' :: (pad2 mo ++ ('-' :: (pad2 d ++ rest)))) = some (mo, d, rest) := by
  unfold parseMonthDay
  rw [if_pos (by simp)]
  show (readN 2 (pad2 mo ++ ('-' :: (pad2 d ++ rest)))).bind _ = some (mo, d, rest)
  rw [readN_pad2 mo (by omega)]
  show (if 1 ≤ mo ∧ mo ≤ 12 then
      if (('-' :: (pad2 d ++ rest)) : List Char).head? = some '-' then
        (readN 2 (('-' :: (pad2 d ++ rest)) : List Char).tail).bind (fun q =>
          if 1 ≤ q.1 ∧ q.1 ≤ 31 then some (mo, q.1, q.2) else none)
      else some (mo, 1, ('-' :: (pad2 d ++ rest))) else none) = some (mo, d, rest)
  rw [if_pos ⟨hmo1, hmo2⟩, if_pos (by simp)]
  show (readN 2 (pad2 d ++ rest)).bind
    (fun q => if 1 ≤ q.1 ∧ q.1 ≤ 31 then some (mo, q.1, q.2) else none) = some (mo, d, rest)
  rw [readN_pad2 d (by omega)]
  show (if 1 ≤ d ∧ d ≤ 31 then some (mo, d, rest) else none) = some (mo, d, rest)
  rw [if_pos ⟨hd1, hd2⟩]

theorem parseTime_pads (hh mi ss ff : Nat) (hhh : hh ≤ 23) (hmi : mi ≤ 59)
    (hss : ss ≤ 59) (hff : ff ≤ 999) :
    parseTime (pad2 hh ++ (':' :: (pad2 mi ++ (':' :: (pad2 ss ++ ('.' :: (pad3 ff ++ ['Z'])))))))
      = some (hh * 3600000 + mi * 60000 + ss * 1000 + ff, ['Z']) := by
  unfold parseTime
  rw [readN_pad2 hh (by omega)]
  show (if ((':' :: (pad2 mi ++ (':' :: (pad2 ss ++ ('.' :: (pad3 ff ++ ['Z'])))))) :
      List Char).head? = some ':' then
    (readN 2 ((':' :: (pad2 mi ++ (':' :: (pad2 ss ++ ('.' :: (pad3 ff ++ ['Z'])))))) :
      List Char).tail).bind (fun q => parseSecTail hh q.1 q.2)
    else none) = some (hh * 3600000 + mi * 60000 + ss * 1000 + ff, ['Z'])
  rw [if_pos (by simp)]
  show (readN 2 (pad2 mi ++ (':' :: (pad2 ss ++ ('.' :: (pad3 ff ++ ['Z'])))))).bind
    (fun q => parseSecTail hh q.1 q.2)
    = some (hh * 3600000 + mi * 60000 + ss * 1000 + ff, ['Z'])
  rw [readN_pad2 mi (by omega)]
  show parseSecTail hh mi (':' :: (pad2 ss ++ ('.' :: (pad3 ff ++ ['Z']))))
    = some (hh * 3600000 + mi * 60000 + ss * 1000 + ff, ['Z'])
  unfold parseSecTail
  rw [if_pos (by simp)]
  show (readN 2 (pad2 ss ++ ('.' :: (pad3 ff ++ ['Z'])))).bind (fun p =>
      if p.2.head? = some '.' then
        (readN 3 p.2.tail).bind (fun q =>
          (hmsValue hh mi p.1 q.1).map (fun ms => (ms, q.2)))
      else (hmsValue hh mi p.1 0).map (fun ms => (ms, p.2)))
    = some (hh * 3600000 + mi * 60000 + ss * 1000 + ff, ['Z'])
  rw [readN_pad2 ss (by omega)]
  show (if (('.' :: (pad3 ff ++ ['Z'])) : List Char).head? = some '.' then
      (readN 3 (('.' :: (pad3 ff ++ ['Z'])) : List Char).tail).bind (fun q =>
        (hmsValue hh mi ss q.1).map (fun ms => (ms, q.2)))
      else (hmsValue hh mi ss 0).map (fun ms => (ms, ('.' :: (pad3 ff ++ ['Z'])))))
    = some (hh * 3600000 + mi * 60000 + ss * 1000 + ff, ['Z'])
  rw [if_pos (by simp)]
  show (readN 3 (pad3 ff ++ ['Z'])).bind (fun q =>
      (hmsValue hh mi ss q.1).map (fun ms => (ms, q.2)))
    = some (hh * 3600000 + mi * 60000 + ss * 1000 + ff, ['Z'])
  rw [readN_pad3 ff (by omega)]
  show (hmsValue hh mi ss ff).map (fun ms => (ms, (['Z'] : List Char)))
    = some (hh * 3600000 + mi * 60000 + ss * 1000 + ff, ['Z'])
  unfold hmsValue
  rw [if_pos ⟨hmi, hss, Or.inl hhh⟩]
  rfl

theorem parseOffset_Z : parseOffset ['Z'] = some 0 := by
  unfold parseOffset
  rw [if_neg (by simp), if_pos rfl]

/-- The calendar year of every epoch day number within the TimeClip range
fits the expanded six-digit year format. -/
theorem civilFromDays_year_wide (z : Int) (h1 : -100000000 ≤ z) (h2 : z ≤ 100000000) :
    (civilFromDays z).1.natAbs ≤ 999999 := by
  have hdoe1 : 0 ≤ z + 719468 - (z + 719468) / 146097 * 146097 := by omega
  have hdoe2 : z + 719468 - (z + 719468) / 146097 * 146097 < 146097 := by omega
  obtain ⟨hy1, hy2, _, _, _, _, _⟩ := yoeDoy_spec _ hdoe1 hdoe2
  unfold civilFromDays
  dsimp only
  have hera1 : -685 ≤ (z + 719468) / 146097 := by omega
  have hera2 : (z + 719468) / 146097 ≤ 690 := by omega
  split_ifs <;> omega

/-- The ISO round trip: parsing the serialized timestamp restores the
timestamp, for every TimeClipped timestamp (in particular for every
timestamp a `Date` can hold). -/
theorem parseISO_toISO (t : Int) (h : tsClipped t) : parseISO (toISO t) = some t := by
  unfold tsClipped at h
  unfold toISO
  dsimp only
  set days := t / 86400000 with hdays
  set msI := t % 86400000 with hmsI
  have hms0 : 0 ≤ msI := by omega
  have hms1 : msI < 86400000 := by omega
  have hdays1 : -100000000 ≤ days := by omega
  have hdays2 : days ≤ 100000000 := by omega
  have hywide := civilFromDays_year_wide days hdays1 hdays2
  obtain ⟨hmo1, hmo12, hd1, hd31⟩ := civilFromDays_month_day_bounds days
  unfold mkISO
  unfold parseISO
  simp only [List.append_assoc, List.cons_append]
  rw [parseYear_yearStr _ hywide]
  simp only [Option.some_bind]
  rw [parseMonthDay_pads (civilFromDays days).2.1.toNat (civilFromDays days).2.2.toNat
    (by omega) (by omega) (by omega) (by omega)]
  simp only [Option.some_bind]
  rw [if_neg (by simp), if_pos (by simp)]
  simp only [List.tail_cons]
  rw [parseTime_pads (msI.toNat / 3600000) (msI.toNat / 60000 % 60) (msI.toNat / 1000 % 60)
    (msI.toNat % 1000) (by omega) (by omega) (by omega) (by omega)]
  simp only [Option.some_bind]
  rw [parseOffset_Z]
  simp only [Option.some_bind]
  have hmoc : ((civilFromDays days).2.1.toNat : Int) = (civilFromDays days).2.1 := by omega
  have hdc : ((civilFromDays days).2.2.toNat : Int) = (civilFromDays days).2.2 := by omega
  rw [hmoc, hdc, daysFromCivil_civilFromDays days]
  have hval : days * 86400000
      + ((msI.toNat / 3600000 * 3600000 + msI.toNat / 60000 % 60 * 60000 +
          msI.toNat / 1000 % 60 * 1000 + msI.toNat % 1000 : Nat) : Int) - 0 = t := by
    have : msI.toNat / 3600000 * 3600000 + msI.toNat / 60000 % 60 * 60000 +
        msI.toNat / 1000 % 60 * 1000 + msI.toNat % 1000 = msI.toNat := by omega
    omega
  rw [hval]
  unfold timeClip
  rw [if_pos h]

/-! ### CSV codec

Embeds `escapeCsvField`, `toCsv` and `parseCsv` from
`src/components/CalorieTracker.tsx`.  The JS `parseCsv` walks the text one
character at a time with an `inQuotes` flag and one-character lookahead
(escaped quote, CRLF); the lookahead is encoded here as two extra states so
the loop is structurally recursive. -/

/-- Characters that force a field to be quoted (`/[\n\r",]/`). -/
def isCsvSpecial (c : Char) : Bool :=
  c = '\n' ∨ c = '\r' ∨ c = '"' ∨ c = ','

/-- Double every `"` (the `value.replace(/"/g, '""')` step). -/
def escQuotes : List Char → List Char
  | [] => []
  | c :: cs => if c = '"' then '"' :: '"' :: escQuotes cs else c :: escQuotes cs

/-- RFC4180-ish escaping: wrap in quotes if needed, doubling inner quotes. -/
def escapeCsvField (f : List Char) : List Char :=
  if f.any isCsvSpecial then '"' :: (escQuotes f ++ ['"']) else f

/-- Model of `Array.prototype.join` with a separator string. -/
def joinWith (sep : List Char) : List (List Char) → List Char
  | [] => []
  | [x] => x
  | x :: xs => x ++ sep ++ joinWith sep xs

/-- `toCsv`: escape every field, join fields with `,` and rows with `\n`. -/
def toCsv (rows : List (List (List Char))) : List Char :=
  joinWith ['\n'] (rows.map (fun row => joinWith [','] (row.map escapeCsvField)))

/-- `pushRow` of the JS parser: a row consisting of exactly one empty field
is dropped unless it would be the first row. -/
def csvPushRow (rows : List (List (List Char))) (row : List (List Char)) :
    List (List (List Char)) :=
  if row = [[]] ∧ rows ≠ [] then rows else rows ++ [row]

/-- Scanner state of the JS `parseCsv` loop: outside quotes, inside quotes,
inside quotes having just read a `"`, or just past a `\r` (possible CRLF). -/
inductive CsvSt
  | plain
  | quoted
  | quotedQ
  | afterCR
deriving DecidableEq

/-- The JS `parseCsv` character loop.  `field` and `row` are the parser's
accumulators; at the end of input the final field is flushed, and the final
row is pushed unless it is a single empty field. -/
def parseCsvAux : List Char → CsvSt → List Char → List (List Char) →
    List (List (List Char)) → List (List (List Char))
  | [], _, field, row, rows =>
      if row ++ [field] = [[]] then rows else csvPushRow rows (row ++ [field])
  | c :: rest, .plain, field, row, rows =>
      if c = '"' then parseCsvAux rest .quoted field row rows
      else if c = ',' then parseCsvAux rest .plain [] (row ++ [field]) rows
      else if c = '\n' then parseCsvAux rest .plain [] [] (csvPushRow rows (row ++ [field]))
      else if c = '\r' then parseCsvAux rest .afterCR [] [] (csvPushRow rows (row ++ [field]))
      else parseCsvAux rest .plain (field ++ [c]) row rows
  | c :: rest, .quoted, field, row, rows =>
      if c = '"' then parseCsvAux rest .quotedQ field row rows
      else parseCsvAux rest .quoted (field ++ [c]) row rows
  | c :: rest, .quotedQ, field, row, rows =>
      if c = '"' then parseCsvAux rest .quoted (field ++ ['"']) row rows
      else if c = ',' then parseCsvAux rest .plain [] (row ++ [field]) rows
      else if c = '\n' then parseCsvAux rest .plain [] [] (csvPushRow rows (row ++ [field]))
      else if c = '\r' then parseCsvAux rest .afterCR [] [] (csvPushRow rows (row ++ [field]))
      else parseCsvAux rest .plain (field ++ [c]) row rows
  | c :: rest, .afterCR, field, row, rows =>
      if c = '\n' then parseCsvAux rest .plain field row rows
      else if c = '"' then parseCsvAux rest .quoted field row rows
      else if c = ',' then parseCsvAux rest .plain [] (row ++ [field]) rows
      else if c = '\r' then parseCsvAux rest .afterCR [] [] (csvPushRow rows (row ++ [field]))
      else parseCsvAux rest .plain (field ++ [c]) row rows

/-- `parseCsv`: rows of fields from raw text. -/
def parseCsv (text : List Char) : List (List (List Char)) :=
  parseCsvAux text .plain [] [] []


theorem stepPlainQuote (r f : List Char) (row : List (List Char))
    (rows : List (List (List Char))) :
    parseCsvAux ('"' :: r) .plain f row rows = parseCsvAux r .quoted f row rows := rfl

theorem stepPlainComma (r f : List Char) (row : List (List Char))
    (rows : List (List (List Char))) :
    parseCsvAux (',' :: r) .plain f row rows = parseCsvAux r .plain [] (row ++ [f]) rows := rfl

theorem stepPlainNL (r f : List Char) (row : List (List Char))
    (rows : List (List (List Char))) :
    parseCsvAux ('\n' :: r) .plain f row rows =
      parseCsvAux r .plain [] [] (csvPushRow rows (row ++ [f])) := rfl

theorem stepPlainChar {c : Char} (hq : c ≠ '"') (hcm : c ≠ ',') (hn : c ≠ '\n')
    (hr : c ≠ '\r') (r f : List Char) (row : List (List Char))
    (rows : List (List (List Char))) :
    parseCsvAux (c :: r) .plain f row rows = parseCsvAux r .plain (f ++ [c]) row rows := by
  simp only [parseCsvAux, if_neg hq, if_neg hcm, if_neg hn, if_neg hr]

theorem stepQuotedQuote (r f : List Char) (row : List (List Char))
    (rows : List (List (List Char))) :
    parseCsvAux ('"' :: r) .quoted f row rows = parseCsvAux r .quotedQ f row rows := rfl

theorem stepQuotedChar {c : Char} (hq : c ≠ '"') (r f : List Char) (row : List (List Char))
    (rows : List (List (List Char))) :
    parseCsvAux (c :: r) .quoted f row rows = parseCsvAux r .quoted (f ++ [c]) row rows := by
  simp only [parseCsvAux, if_neg hq]

theorem stepQuotedQQuote (r f : List Char) (row : List (List Char))
    (rows : List (List (List Char))) :
    parseCsvAux ('"' :: r) .quotedQ f row rows =
      parseCsvAux r .quoted (f ++ ['"']) row rows := rfl

theorem stepQuotedQOther {c : Char} (hq : c ≠ '"') (r f : List Char) (row : List (List Char))
    (rows : List (List (List Char))) :
    parseCsvAux (c :: r) .quotedQ f row rows = parseCsvAux (c :: r) .plain f row rows := by
  simp only [parseCsvAux, if_neg hq]

theorem parseCsvAux_plain_run (f : List Char) :
    ∀ (t field : List Char) (row : List (List Char)) (rows : List (List (List Char))),
      f.any isCsvSpecial = false →
      parseCsvAux (f ++ t) .plain field row rows = parseCsvAux t .plain (field ++ f) row rows := by
  induction f with
  | nil => intro t field row rows _; simp
  | cons c f ih =>
    intro t field row rows hspec
    simp only [List.any_cons, Bool.or_eq_false_iff] at hspec
    obtain ⟨hc, hf⟩ := hspec
    simp only [isCsvSpecial, decide_eq_false_iff_not] at hc
    push_neg at hc
    obtain ⟨hn, hr, hq, hcomma⟩ := hc
    rw [List.cons_append, stepPlainChar hq hcomma hn hr, ih t (field ++ [c]) row rows hf,
      List.append_assoc]
    rfl

theorem parseCsvAux_quoted_run (f : List Char) :
    ∀ (t field : List Char) (row : List (List Char)) (rows : List (List (List Char))),
      t.head? ≠ some '"' →
      parseCsvAux (escQuotes f ++ '"' :: t) .quoted field row rows =
        parseCsvAux t .plain (field ++ f) row rows := by
  induction f with
  | nil =>
    intro t field row rows ht
    rw [show escQuotes [] ++ '"' :: t = '"' :: t from rfl, stepQuotedQuote, List.append_nil]
    match t with
    | [] => rfl
    | c :: t' =>
      have hc : c ≠ '"' := fun h => ht (by simp [h])
      exact stepQuotedQOther hc t' field row rows
  | cons c f ih =>
    intro t field row rows ht
    by_cases hc : c = '"'
    · subst hc
      rw [show escQuotes ('"' :: f) ++ '"' :: t = '"' :: '"' :: (escQuotes f ++ '"' :: t) by
          simp [escQuotes],
        stepQuotedQuote, stepQuotedQQuote, ih t (field ++ ['"']) row rows ht,
        List.append_assoc]
      rfl
    · rw [show escQuotes (c :: f) ++ '"' :: t = c :: (escQuotes f ++ '"' :: t) by
          simp [escQuotes, hc],
        stepQuotedChar hc, ih t (field ++ [c]) row rows ht, List.append_assoc]
      rfl

theorem parseCsvAux_field (f : List Char)
    (t field : List Char) (row : List (List Char)) (rows : List (List (List Char)))
    (ht : t.head? ≠ some '"') :
    parseCsvAux (escapeCsvField f ++ t) .plain field row rows =
      parseCsvAux t .plain (field ++ f) row rows := by
  unfold escapeCsvField
  by_cases hs : f.any isCsvSpecial
  · rw [if_pos hs, show ('"' :: (escQuotes f ++ ['"'])) ++ t
        = '"' :: (escQuotes f ++ '"' :: t) by simp, stepPlainQuote]
    exact parseCsvAux_quoted_run f t field row rows ht
  · rw [if_neg hs]
    exact parseCsvAux_plain_run f t field row rows (by simpa using hs)

theorem joinWith_cons (sep : List Char) (x : List Char) (xs : List (List Char))
    (h : xs ≠ []) : joinWith sep (x :: xs) = x ++ sep ++ joinWith sep xs := by
  match xs, h with
  | y :: ys, _ => rfl

theorem parseCsvAux_row3 (a b c : List Char) (t : List Char)
    (rows : List (List (List Char))) (ht : t.head? ≠ some '"') :
    parseCsvAux (joinWith [','] ([a, b, c].map escapeCsvField) ++ t) .plain [] [] rows =
      parseCsvAux t .plain c [a, b] rows := by
  have hexp : joinWith [','] ([a, b, c].map escapeCsvField) ++ t =
      escapeCsvField a ++ ',' :: (escapeCsvField b ++ ',' :: (escapeCsvField c ++ t)) := by
    show (escapeCsvField a ++ [','] ++ (escapeCsvField b ++ [','] ++ escapeCsvField c)) ++ t = _
    simp
  rw [hexp, parseCsvAux_field a _ [] [] rows (by simp), stepPlainComma]
  simp only [List.nil_append]
  rw [parseCsvAux_field b _ [] [a] rows (by simp), stepPlainComma]
  simp only [List.nil_append, List.singleton_append]
  rw [parseCsvAux_field c t [] [a, b] rows ht]
  simp

theorem csvPushRow_three (rows : List (List (List Char))) (a b c : List Char) :
    csvPushRow rows [a, b, c] = rows ++ [[a, b, c]] := by
  simp [csvPushRow]

theorem parseCsvAux_toCsv :
    ∀ (rs : List (List (List Char))) (acc : List (List (List Char))),
      rs ≠ [] → (∀ r ∈ rs, ∃ a b c, r = [a, b, c]) →
      parseCsvAux (toCsv rs) .plain [] [] acc = acc ++ rs := by
  intro rs
  induction rs with
  | nil => intro acc h; exact absurd rfl h
  | cons r rs ih =>
    intro acc _ h3
    obtain ⟨a, b, c, rfl⟩ := h3 r (by simp)
    match rs, ih with
    | [], _ =>
      show parseCsvAux (joinWith ['\n'] [joinWith [','] ([a, b, c].map escapeCsvField)])
        .plain [] [] acc = acc ++ [[a, b, c]]
      show parseCsvAux (joinWith [','] ([a, b, c].map escapeCsvField)) .plain [] [] acc = _
      rw [show joinWith [','] ([a, b, c].map escapeCsvField)
          = joinWith [','] ([a, b, c].map escapeCsvField) ++ [] by simp,
        parseCsvAux_row3 a b c [] acc (by simp)]
      show (if [a, b] ++ [c] = [[]] then acc else csvPushRow acc ([a, b] ++ [c])) = _
      rw [if_neg (by simp), show [a, b] ++ [c] = [a, b, c] from rfl, csvPushRow_three]
    | r' :: rs', ih =>
      have hmapne : (r' :: rs').map (fun row => joinWith [','] (row.map escapeCsvField)) ≠ [] := by
        simp
      rw [show toCsv ((([a, b, c]) : List (List Char)) :: r' :: rs')
          = joinWith [','] ([a, b, c].map escapeCsvField) ++ '\n' :: toCsv (r' :: rs') by
        show joinWith ['\n'] _ = _
        rw [List.map_cons, joinWith_cons _ _ _ hmapne]
        simp [toCsv],
        parseCsvAux_row3 a b c _ acc (by cases toCsv (r' :: rs') <;> simp),
        stepPlainNL, show [a, b] ++ [c] = [a, b, c] from rfl, csvPushRow_three,
        ih (acc ++ [[a, b, c]]) (by simp) (fun r hr => h3 r (by simp [hr]))]
      simp

theorem parseCsv_toCsv (rows : List (List (List Char))) (hne : rows ≠ [])
    (h3 : ∀ r ∈ rows, ∃ a b c, r = [a, b, c]) : parseCsv (toCsv rows) = rows := by
  simpa using parseCsvAux_toCsv rows [] hne h3

/-! ### The entry model and the import pipeline

`CalorieItem` from the source, minus the `id` field: ids are opaque
`crypto.randomUUID` handles, are never serialized by the codec and are
regenerated on import, so they are not part of the observable entry data.
The two numeric fields are JS numbers that may in principle hold non-finite
values, hence `Option Int` (`none` = NaN). -/

structure CalorieItem where
  name : List Char
  calories : Option Int
  timestamp : Option Int
deriving DecidableEq, Repr

/-- The default name for a blank `name` field. -/
def unnamedItem : List Char := "Unnamed Item".toList

/-- `throw` message for fewer than two CSV rows. -/
def errRows : List Char :=
  "CSV must include a header row and at least one data row.".toList

/-- `throw` message for a missing header column. -/
def errHeader : List Char := "CSV header must include: Name, Calories, Time".toList

/-- `throw` message for an unparseable `Calories` cell
(`Invalid Calories value on row ${i + 1}: ${rawCalories}`). -/
def errCalories (rowNum : Nat) (raw : List Char) : List Char :=
  "Invalid Calories value on row ".toList ++ natDigits rowNum ++ ": ".toList ++ raw

/-- `throw` message for an unparseable `Time` cell. -/
def errTime (rowNum : Nat) (raw : List Char) : List Char :=
  "Invalid Time value on row ".toList ++ natDigits rowNum ++ ": ".toList ++ raw

/-- A row all of whose cells are blank after trimming (skipped silently). -/
def rowIsBlank (row : List (List Char)) : Bool :=
  row.all (fun cell => (trimL cell).isEmpty)

/-- The data-row loop of `importFromCSV`.  `i` is the 0-based index of the
current row in the parsed row list (the loop starts at 1, just past the
header); missing cells read as `undefined ?? ""`, i.e. the empty string. -/
def importRows : List (List (List Char)) → Nat → Nat → Nat → Nat →
    Except (List Char) (List CalorieItem)
  | [], _, _, _, _ => .ok []
  | row :: rest, i, nIdx, cIdx, tIdx =>
    if rowIsBlank row then importRows rest (i + 1) nIdx cIdx tIdx
    else
      let rawName := trimL (row.getD nIdx [])
      let rawCalories := trimL (row.getD cIdx [])
      let rawTime := trimL (row.getD tIdx [])
      match jsParseInt rawCalories with
      | none => .error (errCalories (i + 1) rawCalories)
      | some cal =>
        match parseISO rawTime with
        | none => .error (errTime (i + 1) rawTime)
        | some ts =>
          (importRows rest (i + 1) nIdx cIdx tIdx).map
            (fun items =>
              { name := if rawName.isEmpty then unnamedItem else rawName,
                calories := some cal, timestamp := some ts } :: items)

/-- Ascending-timestamp comparison used by `nextItems.sort((a, b) =>
a.timestamp - b.timestamp)`; import-produced items always carry a finite
timestamp, so the NaN placeholder value is irrelevant there. -/
def itemLe (x y : CalorieItem) : Prop :=
  x.timestamp.getD 0 ≤ y.timestamp.getD 0

instance : DecidableRel itemLe := fun x y =>
  inferInstanceAs (Decidable (x.timestamp.getD 0 ≤ y.timestamp.getD 0))

instance : IsTotal CalorieItem itemLe := ⟨fun _ _ => Int.le_total _ _⟩

instance : IsTrans CalorieItem itemLe := ⟨fun _ _ _ h1 h2 => le_trans h1 h2⟩

/-- The JS sort is a stable ascending sort; insertion sort with `≤` computes
the same permutation. -/
def sortItems (items : List CalorieItem) : List CalorieItem :=
  List.insertionSort itemLe items

/-- `importFromCSV` on the file text: tokenize, validate the header
(case-insensitive, order-independent), validate every data row, sort.
Errors are the `throw`n `FormatError` messages. -/
def headerOf (r0 : List (List Char)) : List (List Char) :=
  r0.map (fun h => toLowerL (trimL h))

def importModel (text : List Char) : Except (List Char) (List CalorieItem) :=
  match parseCsv text with
  | r0 :: d1 :: drest =>
    match (headerOf r0).findIdx? (· == "name".toList),
        (headerOf r0).findIdx? (· == "calories".toList),
        (headerOf r0).findIdx? (· == "time".toList) with
    | some nIdx, some cIdx, some tIdx =>
        (importRows (d1 :: drest) 1 nIdx cIdx tIdx).map sortItems
    | _, _, _ => .error errHeader
  | _ => .error errRows

/-- The effect of an import on the component's entry list: the caller
catches any `FormatError` and shows a status message, leaving `items`
untouched; only a fully validated import reaches `setItems`. -/
def importStep (text : List Char) (prev : List CalorieItem) : List CalorieItem :=
  match importModel text with
  | .ok items => items
  | .error _ => prev

/-- Strip trailing `0` digits. -/
def stripTrailingZeros (ds : List Char) : List Char :=
  (ds.reverse.dropWhile (fun c => c = '0')).reverse

/-- JS exponential notation for an integral magnitude of `10^21` or more:
the significant digits (the first, then a point and the rest if any exist)
followed by `e+` and the exponent.  (JS prints the shortest digit string
that round-trips the stored double; on this model's exact integers these
are the integer's own digits with trailing zeros dropped, which coincides
with JS whenever the double stores the integer exactly, e.g. for `10^21`
itself.) -/
def jsExpNotation (n : Nat) : List Char :=
  let ds := natDigits n
  match stripTrailingZeros ds with
  | [] => '0' :: 'e' :: '+' :: natDigits (ds.length - 1)
  | [d] => d :: 'e' :: '+' :: natDigits (ds.length - 1)
  | d :: ds2 => d :: '.' :: (ds2 ++ 'e' :: '+' :: natDigits (ds.length - 1))

/-- JS string conversion of a number field (`String(item.calories)`):
plain decimal digits below `10^21`, exponential notation from `10^21` up,
and `NaN` on the non-finite marker. -/
def jsNumToString : Option Int → List Char
  | none => "NaN".toList
  | some z =>
    if z.natAbs < 10 ^ 21 then intToString z
    else (if z < 0 then ['-'] else []) ++ jsExpNotation z.natAbs

/-- The exponential-notation threshold is finite: `10^21` doubles do not
overflow, so a calorie value can reach the exponential branch. -/
theorem pow21_lt_overflow : (10 : Nat) ^ 21 < jsOverflowBound := by decide

/-- The rows handed to `toCsv` by `exportToCSV`: a fixed header plus
`[name, String(calories), toISOString(timestamp)]` per entry.  (On a NaN
timestamp the real `toISOString` throws; the placeholder value keeps the
model total and is only ever used under finiteness hypotheses.) -/
def exportRows (items : List CalorieItem) : List (List (List Char)) :=
  ["Name".toList, "Calories".toList, "Time".toList] ::
    items.map (fun it => [it.name, jsNumToString it.calories, toISO (it.timestamp.getD 0)])

/-- `exportToCSV`'s serialized file content. -/
def serializeModel (items : List CalorieItem) : List Char :=
  toCsv (exportRows items)

/-- `addItem`: rejects an empty calories input (`if (!calories) return`),
otherwise appends an entry with `parseInt(calories)` and the current time. -/
def addItemModel (nameInput caloriesInput : List Char) (now : Int)
    (items : List CalorieItem) : List CalorieItem :=
  if caloriesInput.isEmpty then items
  else
    items ++ [{ name := if nameInput.isEmpty then unnamedItem else nameInput,
                calories := jsParseInt caloriesInput, timestamp := some now }]

/-- `removeItem`: `items.filter(item => item.id !== id)`; since ids are
opaque handles the kept-set is abstracted as a predicate. -/
def removeItemModel (keep : CalorieItem → Bool) (items : List CalorieItem) :
    List CalorieItem :=
  items.filter keep

deriving instance DecidableEq for Except

/-! ### Statistics engine -/

/-- `Math.round`: round half toward positive infinity. -/
def jsRound (q : Rat) : Int := ⌊q + 1 / 2⌋

/-- The `Targets` record of the source. -/
structure Targets where
  maintenance : Int
  oneLb : Int
  twoLb : Int
deriving DecidableEq, Repr

/-- The `targets` computation: sedentary maintenance `round(weight * 14)`
with 1200-kcal floors on the deficit goals. -/
def targetsModel (w : Rat) : Targets :=
  let maintenance := jsRound (w * 14)
  { maintenance := maintenance,
    oneLb := max 1200 (maintenance - 500),
    twoLb := max 1200 (maintenance - 1000) }

/-- The 7-day rolling-average loop of `dailyChartData`: for each index the
mean of `dailyCalories.slice(max(0, i - 6), i + 1)`, rounded. -/
def rollingAverage (dailyCalories : List Int) : List Int :=
  (List.range dailyCalories.length).map (fun i =>
    let window := (dailyCalories.drop (i - 6)).take (i + 1 - (i - 6))
    jsRound ((window.sum : Rat) / (window.length : Rat)))

/-- `toISOString(..).split('T')[0]`: the `YYYY-MM-DD` day key of a
timestamp. -/
def dateKey (t : Int) : List Char :=
  (toISO t).takeWhile (fun c => c != 'T')

/-- `Map.prototype.set`: update in place if present, else append
(JS `Map` preserves first-insertion order). -/
def mapSet (m : List (List Char × Option Int)) (k : List Char) (v : Option Int) :
    List (List Char × Option Int) :=
  match m with
  | [] => [(k, v)]
  | (k', v') :: rest => if k' = k then (k, v) :: rest else (k', v') :: mapSet rest k v

/-- `Map.prototype.get`: `none` models `undefined`. -/
def mapGet (m : List (List Char × Option Int)) (k : List Char) : Option (Option Int) :=
  (m.find? (fun e => e.1 == k)).map (fun e => e.2)

/-- `dailyTotals.get(k) || 0`: `undefined`, `NaN` and `0` are all falsy and
collapse to `0`. -/
def jsGetOr0 (m : List (List Char × Option Int)) (k : List Char) : Int :=
  match mapGet m k with
  | some (some v) => v
  | _ => 0

/-- NaN-propagating JS addition on number fields. -/
def jsAdd (a b : Option Int) : Option Int :=
  match a, b with
  | some x, some y => some (x + y)
  | _, _ => none

/-- The `items.forEach` accumulation of per-day totals.  A NaN timestamp
makes `toISOString` throw a `RangeError` (modelled as the error case); NaN
calories simply propagate into the stored total. -/
def buildTotals : List CalorieItem → List (List Char × Option Int) →
    Except (List Char) (List (List Char × Option Int))
  | [], m => .ok m
  | it :: rest, m =>
    match it.timestamp with
    | none => .error "RangeError: Invalid time value".toList
    | some ts =>
      let k := dateKey ts
      buildTotals rest (mapSet m k (jsAdd (some (jsGetOr0 m k)) it.calories))

/-- The data of `dailyChartData` relevant to the statistics claims. -/
structure DailyStats where
  dailyCalories : List Int
  rollingAvg : List Int
  averageCalories : Int
  expectedWeightLossPerMonth : Rat
deriving DecidableEq, Repr

/-- `Array.from(dailyTotals.keys()).sort()` followed by
`sortedDates.map(date => dailyTotals.get(date) || 0)`: day keys in
lexicographic order, with their totals (`|| 0` collapses a NaN total). -/
def dailyCaloriesOf (m : List (List Char × Option Int)) : List Int :=
  (List.insertionSort (· ≤ ·) (m.map Prod.fst)).map (fun d => jsGetOr0 m d)

/-- The statistics derived from the per-day totals map: daily series,
rolling average, overall average and projected monthly weight change
(`(maintenance - average) * 30 / 3500`). -/
def statsOfTotals (m : List (List Char × Option Int)) (maintenance : Int) : DailyStats :=
  let dailyCalories := dailyCaloriesOf m
  let averageCalories := jsRound ((dailyCalories.sum : Rat) / (dailyCalories.length : Rat))
  { dailyCalories := dailyCalories,
    rollingAvg := rollingAverage dailyCalories,
    averageCalories := averageCalories,
    expectedWeightLossPerMonth :=
      ((maintenance : Rat) - (averageCalories : Rat)) * 30 / 3500 }

/-- `dailyChartData`: `ok none` is the `null` "no data" result for an empty
entry list; `error` models the uncaught `RangeError` of `toISOString` on a
NaN timestamp; otherwise the statistics of the per-day totals. -/
def dailyChartData (items : List CalorieItem) (maintenance : Int) :
    Except (List Char) (Option DailyStats) :=
  if items.isEmpty then .ok none
  else (buildTotals items []).map (fun m => some (statsOfTotals m maintenance))

/-! ### Supporting lemmas for the claims -/

theorem dropWhile_eq_self_of_all {p : Char → Bool} :
    ∀ {l : List Char}, (∀ c ∈ l, p c = false) → l.dropWhile p = l := by
  intro l
  induction l with
  | nil => intro _; rfl
  | cons c cs _ =>
    intro h
    simp [List.dropWhile_cons, h c (by simp)]

theorem trimL_eq_self_of_no_ws {l : List Char}
    (h : ∀ c ∈ l, isWsChar c = false) : trimL l = l := by
  unfold trimL
  rw [dropWhile_eq_self_of_all h,
    dropWhile_eq_self_of_all (fun c hc => h c (by simpa using hc)), List.reverse_reverse]

theorem intToString_no_ws (z : Int) : ∀ c ∈ intToString z, isWsChar c = false := by
  intro c hc
  unfold intToString at hc
  by_cases hz : z < 0
  · rw [if_pos hz] at hc
    rcases List.mem_cons.1 hc with h | h
    · rw [h]; decide
    · exact (natDigits_all_digit _ c h).2
  · rw [if_neg hz] at hc
    exact (natDigits_all_digit _ c hc).2

theorem digitChar_no_ws (d : Nat) : isWsChar (digitChar d) = false := by
  by_cases h : d < 10
  · exact not_isWs_digitChar h
  · have : digitChar d = '9' := by
      unfold digitChar
      match d, h with
      | n + 9, _ =>
        match n with
        | 0 => rfl
        | m + 1 => rfl
    rw [this]
    rfl

theorem forall_mem_append_chars {p : Char → Prop} {a b : List Char}
    (ha : ∀ c ∈ a, p c) (hb : ∀ c ∈ b, p c) : ∀ c ∈ a ++ b, p c := by
  intro c hc
  rcases List.mem_append.1 hc with h | h
  · exact ha c h
  · exact hb c h

theorem pad2_no_ws (n : Nat) : ∀ c ∈ pad2 n, isWsChar c = false := by
  intro c hc
  simp only [pad2, List.mem_cons, List.not_mem_nil, or_false] at hc
  rcases hc with h | h <;> (rw [h]; exact digitChar_no_ws _)

theorem pad3_no_ws (n : Nat) : ∀ c ∈ pad3 n, isWsChar c = false := by
  intro c hc
  simp only [pad3, List.mem_cons, List.not_mem_nil, or_false] at hc
  rcases hc with h | h | h <;> (rw [h]; exact digitChar_no_ws _)

theorem pad4_no_ws (n : Nat) : ∀ c ∈ pad4 n, isWsChar c = false := by
  intro c hc
  simp only [pad4, List.mem_cons, List.not_mem_nil, or_false] at hc
  rcases hc with h | h | h | h <;> (rw [h]; exact digitChar_no_ws _)

theorem pad6_no_ws (n : Nat) : ∀ c ∈ pad6 n, isWsChar c = false := by
  intro c hc
  simp only [pad6, List.mem_cons, List.not_mem_nil, or_false] at hc
  rcases hc with h | h | h | h | h | h <;> (rw [h]; exact digitChar_no_ws _)

theorem yearStr_no_ws (y : Int) : ∀ c ∈ yearStr y, isWsChar c = false := by
  intro c hc
  unfold yearStr at hc
  split_ifs at hc
  · exact pad4_no_ws _ c hc
  · rcases List.mem_cons.1 hc with h | h
    · rw [h]; decide
    · exact pad6_no_ws _ c h
  · rcases List.mem_cons.1 hc with h | h
    · rw [h]; decide
    · exact pad6_no_ws _ c h

theorem mkISO_no_ws (ys : List Char) (hys : ∀ c ∈ ys, isWsChar c = false)
    (mo d hh mi ss ff : Nat) :
    ∀ c ∈ mkISO ys mo d hh mi ss ff, isWsChar c = false := by
  intro c hc
  simp only [mkISO, List.mem_append, List.mem_cons, List.not_mem_nil, or_false,
    List.mem_singleton, or_assoc] at hc
  rcases hc with h | h | h | h | h | h | h | h | h | h | h | h | h | h <;>
    first
      | exact hys c h
      | exact pad3_no_ws _ c h
      | exact pad2_no_ws _ c h
      | (rw [h]; decide)
      | decide

theorem toISO_no_ws (t : Int) : ∀ c ∈ toISO t, isWsChar c = false := by
  unfold toISO
  exact mkISO_no_ws _ (yearStr_no_ws _) _ _ _ _ _ _

/-! ### Claim theorems -/

/-- C4: for every weight input `w` the derived targets satisfy
`maintenance = round(w * 14)`, `oneLb = max(1200, maintenance - 500)`,
`twoLb = max(1200, maintenance - 1000)`; for `weight = 180` the targets are
`(2520, 2020, 1520)` and for `weight = 50` they are `(700, 1200, 1200)`. -/
theorem C4_targets :
    (∀ w : Rat,
      (targetsModel w).maintenance = jsRound (w * 14) ∧
      (targetsModel w).oneLb = max 1200 ((targetsModel w).maintenance - 500) ∧
      (targetsModel w).twoLb = max 1200 ((targetsModel w).maintenance - 1000)) ∧
    targetsModel 180 = ⟨2520, 2020, 1520⟩ ∧
    targetsModel 50 = ⟨700, 1200, 1200⟩ := by
  have h180 : jsRound ((180 : Rat) * 14) = 2520 := by
    unfold jsRound
    norm_num
  have h50 : jsRound ((50 : Rat) * 14) = 700 := by
    unfold jsRound
    norm_num
  refine ⟨fun w => ⟨rfl, rfl, rfl⟩, ?_, ?_⟩
  · unfold targetsModel
    rw [h180]
    rfl
  · unfold targetsModel
    rw [h50]
    rfl

/-- C5: for every daily-total sequence and every day index `i`, the rolling
average at `i` is the mean of the totals over the inclusive window
`[max(0, i - 6), i]` (whose width is `min (i + 1) 7`), rounded to the
nearest integer; daily totals `[100, 200, 300]` yield `[100, 150, 200]`. -/
theorem C5_rollingAverage :
    (∀ (l : List Int) (i : Nat), i < l.length →
      (rollingAverage l).get? i =
        some (jsRound
          ((((l.drop ((i : Int) - 6).toNat).take (i + 1 - ((i : Int) - 6).toNat)).sum : Rat) /
           (((l.drop ((i : Int) - 6).toNat).take (i + 1 - ((i : Int) - 6).toNat)).length : Rat)))
        ∧
      ((l.drop ((i : Int) - 6).toNat).take (i + 1 - ((i : Int) - 6).toNat)).length
        = min (i + 1) 7) ∧
    rollingAverage [100, 200, 300] = [100, 150, 200] := by
  constructor
  · intro l i hi
    have hstart : ((i : Int) - 6).toNat = i - 6 := by omega
    constructor
    · rw [rollingAverage, List.get?_map, List.get?_range hi, hstart]
      rfl
    · rw [hstart]
      simp only [List.length_take, List.length_drop]
      omega
  · simp only [rollingAverage]
    rw [show ([100, 200, 300] : List Int).length = 3 from rfl,
      show List.range 3 = [0, 1, 2] from rfl]
    simp only [List.map_cons, List.map_nil]
    rw [show List.take (0 + 1 - (0 - 6)) (List.drop (0 - 6) ([100, 200, 300] : List Int))
        = [100] from rfl,
      show List.take (1 + 1 - (1 - 6)) (List.drop (1 - 6) ([100, 200, 300] : List Int))
        = [100, 200] from rfl,
      show List.take (2 + 1 - (2 - 6)) (List.drop (2 - 6) ([100, 200, 300] : List Int))
        = [100, 200, 300] from rfl]
    simp only [List.sum_cons, List.sum_nil, List.length_cons, List.length_nil]
    unfold jsRound
    norm_num

/-- C5 witness: the windowed-mean characterization instantiated at
`l = [100, 200, 300]`, `i = 1`. -/
theorem C5_rollingAverage_witness :
    1 < ([100, 200, 300] : List Int).length ∧
    (rollingAverage [100, 200, 300]).get? 1 = some 150 := by
  refine ⟨by decide, ?_⟩
  have h := (C5_rollingAverage.1 [100, 200, 300] 1 (by decide)).1
  rw [h]
  have e : (((1 : Nat) : Int) - 6).toNat = 0 := by norm_num
  rw [e, show List.take (1 + 1 - 0) (List.drop 0 ([100, 200, 300] : List Int))
      = [100, 200] from rfl]
  simp only [List.sum_cons, List.sum_nil, List.length_cons, List.length_nil]
  unfold jsRound
  norm_num

theorem mapSet_ne_nil (m : List (List Char × Option Int)) (k : List Char) (v : Option Int) :
    mapSet m k v ≠ [] := by
  match m with
  | [] => simp [mapSet]
  | (k', v') :: rest =>
    unfold mapSet
    split_ifs <;> simp

theorem buildTotals_ok :
    ∀ (items : List CalorieItem) (m : List (List Char × Option Int)),
      (∀ e ∈ items, e.timestamp.isSome = true) →
      ∃ m', buildTotals items m = .ok m' ∧ (items ≠ [] ∨ m ≠ [] → m' ≠ []) := by
  intro items
  induction items with
  | nil =>
    intro m _
    exact ⟨m, rfl, fun h => by
      rcases h with h | h
      · exact absurd rfl h
      · exact h⟩
  | cons it rest ih =>
    intro m hts
    have hit : it.timestamp.isSome = true := hts it (by simp)
    match hcase : it.timestamp with
    | none => rw [hcase] at hit; simp at hit
    | some ts =>
      obtain ⟨m', hm', hne⟩ := ih (mapSet m (dateKey ts) (jsAdd (some (jsGetOr0 m (dateKey ts))) it.calories))
        (fun e he => hts e (by simp [he]))
      refine ⟨m', ?_, fun _ => ?_⟩
      · unfold buildTotals
        rw [hcase]
        exact hm'
      · exact hne (Or.inr (mapSet_ne_nil _ _ _))

theorem dailyCaloriesOf_ne_nil (m : List (List Char × Option Int)) (hm : m ≠ []) :
    dailyCaloriesOf m ≠ [] := by
  unfold dailyCaloriesOf
  intro h
  have h1 := congrArg List.length h
  simp only [List.length_map, List.length_insertionSort, List.length_nil] at h1
  exact hm (List.length_eq_zero.1 h1)

theorem dailyChartData_spec (items : List CalorieItem) (maint : Int)
    (hne : items ≠ []) (hts : ∀ e ∈ items, e.timestamp.isSome = true) :
    ∃ s, dailyChartData items maint = .ok (some s) ∧
      s.dailyCalories ≠ [] ∧
      s.rollingAvg = rollingAverage s.dailyCalories ∧
      s.averageCalories =
        jsRound ((s.dailyCalories.sum : Rat) / (s.dailyCalories.length : Rat)) ∧
      s.expectedWeightLossPerMonth =
        ((maint : Rat) - (s.averageCalories : Rat)) * 30 / 3500 := by
  obtain ⟨m', hm', hne'⟩ := buildTotals_ok items [] hts
  refine ⟨statsOfTotals m' maint, ?_, ?_, rfl, rfl, rfl⟩
  · unfold dailyChartData
    rw [if_neg (by simpa [List.isEmpty_iff] using hne), hm']
    rfl
  · exact dailyCaloriesOf_ne_nil m' (hne' (Or.inl hne))

/-- C9: the statistics engine is total: the empty entry list yields the
explicit "no data" result (`null`) instead of any computation, and every
non-empty list of entries (which by the data-model invariant carry finite
timestamps) yields a defined statistics result over a non-empty daily
series, so the average never divides by zero. -/
theorem C9_stats_total :
    (∀ maint : Int, dailyChartData [] maint = .ok none) ∧
    (∀ (items : List CalorieItem) (maint : Int),
      items ≠ [] → (∀ e ∈ items, e.timestamp.isSome = true) →
      ∃ s, dailyChartData items maint = .ok (some s) ∧ s.dailyCalories ≠ []) := by
  constructor
  · intro maint
    rfl
  · intro items maint hne hts
    obtain ⟨s, h1, h2, _⟩ := dailyChartData_spec items maint hne hts
    exact ⟨s, h1, h2⟩

/-- C9 witness: a singleton entry list yields a defined result. -/
theorem C9_stats_total_witness :
    ∃ s, dailyChartData [⟨"a".toList, some 5, some 0⟩] 100 = .ok (some s) ∧
      s.dailyCalories ≠ [] := by
  exact C9_stats_total.2 [⟨"a".toList, some 5, some 0⟩] 100 (by decide) (by decide)

theorem ewl_sign (a : Rat) :
    (0 < a * 30 / 3500 ↔ 0 < a) ∧ (a * 30 / 3500 < 0 ↔ a < 0) ∧
    (a * 30 / 3500 = 0 ↔ a = 0) := by
  refine ⟨?_, ?_, ?_⟩ <;> constructor <;> intro h <;> nlinarith [h]

/-- C6: for every non-empty entry list the overall average is the rounded
mean of the daily totals, the projected monthly weight change is
`(maintenance - average) * 30 / 3500` pounds, its sign tracks loss / gain /
maintenance, and the `[1000, 2000]`-with-maintenance-1700 example gives
average `1500` and projected change `12/7 ≈ 1.71`. -/
theorem C6_monthly_projection :
    (∀ (items : List CalorieItem) (maint : Int),
      items ≠ [] → (∀ e ∈ items, e.timestamp.isSome = true) →
      ∃ s, dailyChartData items maint = .ok (some s) ∧
        s.averageCalories =
          jsRound ((s.dailyCalories.sum : Rat) / (s.dailyCalories.length : Rat)) ∧
        s.expectedWeightLossPerMonth =
          ((maint : Rat) - (s.averageCalories : Rat)) * 30 / 3500 ∧
        (0 < s.expectedWeightLossPerMonth ↔ s.averageCalories < maint) ∧
        (s.expectedWeightLossPerMonth < 0 ↔ maint < s.averageCalories) ∧
        (s.expectedWeightLossPerMonth = 0 ↔ s.averageCalories = maint)) ∧
    (∃ s, dailyChartData
        [⟨"a".toList, some 1000, some 0⟩, ⟨"b".toList, some 2000, some 86400000⟩] 1700
        = .ok (some s) ∧
      s.dailyCalories = [1000, 2000] ∧ s.averageCalories = 1500 ∧
      s.expectedWeightLossPerMonth = 12 / 7) := by
  constructor
  · intro items maint hne hts
    obtain ⟨s, h1, _, _, h4, h5⟩ := dailyChartData_spec items maint hne hts
    have hd : (maint : Rat) - (s.averageCalories : Rat) > 0 ↔ s.averageCalories < maint := by
      constructor <;> intro h
      · exact_mod_cast sub_pos.1 h
      · exact sub_pos.2 (by exact_mod_cast h)
    have hd2 : (maint : Rat) - (s.averageCalories : Rat) < 0 ↔ maint < s.averageCalories := by
      constructor <;> intro h
      · exact_mod_cast sub_neg.1 h
      · exact sub_neg.2 (by exact_mod_cast h)
    have hd3 : (maint : Rat) - (s.averageCalories : Rat) = 0 ↔ s.averageCalories = maint := by
      constructor <;> intro h
      · exact_mod_cast (sub_eq_zero.1 h).symm
      · rw [h]; ring
    obtain ⟨hs1, hs2, hs3⟩ := ewl_sign ((maint : Rat) - (s.averageCalories : Rat))
    refine ⟨s, h1, h4, h5, ?_, ?_, ?_⟩
    · rw [h5]; rw [hs1]; exact hd
    · rw [h5]; rw [hs2]; exact hd2
    · rw [h5]; rw [hs3]; exact hd3
  · have hbt : buildTotals
        [⟨"a".toList, some 1000, some 0⟩, ⟨"b".toList, some 2000, some 86400000⟩] [] =
        .ok [("1970-01-01".toList, some 1000), ("1970-01-02".toList, some 2000)] := by
      decide
    have hdc : dailyCaloriesOf
        [("1970-01-01".toList, some 1000), ("1970-01-02".toList, some 2000)]
        = [1000, 2000] := by
      decide
    have havg : jsRound ((([1000, 2000] : List Int).sum : Rat)
        / (([1000, 2000] : List Int).length : Rat)) = 1500 := by
      rw [show ([1000, 2000] : List Int).sum = 3000 from rfl,
        show ([1000, 2000] : List Int).length = 2 from rfl]
      unfold jsRound
      norm_num
    refine ⟨statsOfTotals
        [("1970-01-01".toList, some 1000), ("1970-01-02".toList, some 2000)] 1700,
      ?_, ?_, ?_, ?_⟩
    · unfold dailyChartData
      rw [if_neg (by decide), hbt]
      rfl
    · show dailyCaloriesOf _ = _
      exact hdc
    · show jsRound _ = 1500
      calc jsRound ((dailyCaloriesOf
              [("1970-01-01".toList, some 1000), ("1970-01-02".toList, some 2000)]).sum /
            ((dailyCaloriesOf
              [("1970-01-01".toList, some 1000), ("1970-01-02".toList, some 2000)]).length : Rat))
          = jsRound ((([1000, 2000] : List Int).sum : Rat)
              / (([1000, 2000] : List Int).length : Rat)) := by rw [hdc]
        _ = 1500 := havg
    · show ((1700 : Rat) - (jsRound _ : Rat)) * 30 / 3500 = 12 / 7
      rw [show jsRound ((dailyCaloriesOf
            [("1970-01-01".toList, some 1000), ("1970-01-02".toList, some 2000)]).sum /
          ((dailyCaloriesOf
            [("1970-01-01".toList, some 1000), ("1970-01-02".toList, some 2000)]).length : Rat))
          = 1500 by rw [hdc]; exact havg]
      norm_num

/-- C6 witness: the general characterization applied to a singleton list. -/
theorem C6_monthly_projection_witness :
    ∃ s, dailyChartData [⟨"c".toList, some 700, some 0⟩] 1000 = .ok (some s) ∧
      s.expectedWeightLossPerMonth = ((1000 : Rat) - (s.averageCalories : Rat)) * 30 / 3500 := by
  obtain ⟨s, h1, _, h3, _⟩ :=
    C6_monthly_projection.1 [⟨"c".toList, some 700, some 0⟩] 1000 (by decide) (by decide)
  exact ⟨s, h1, h3⟩

theorem map_sortItems_ok (e : Except (List Char) (List CalorieItem))
    (items : List CalorieItem) (h : e.map sortItems = .ok items) :
    ∃ raw, items = sortItems raw := by
  cases e with
  | error err => simp [Except.map] at h
  | ok raw =>
    simp only [Except.map, Except.ok.injEq] at h
    exact ⟨raw, h.symm⟩

theorem importModel_shape (text : List Char) (items : List CalorieItem)
    (h : importModel text = .ok items) :
    ∃ raw, items = sortItems raw := by
  unfold importModel at h
  split at h
  · split at h
    · exact map_sortItems_ok _ items h
    · exact absurd h (by simp)
  · exact absurd h (by simp)

/-- C7: a successfully imported list is sorted ascending by timestamp, and
the import entirely replaces the previous entry list: the state does
not depend on it. -/
theorem C7_sorted_replace (text : List Char) (items : List CalorieItem)
    (h : importModel text = .ok items) :
    List.Sorted itemLe items ∧ ∀ prev : List CalorieItem, importStep text prev = items := by
  constructor
  · obtain ⟨raw, hraw⟩ := importModel_shape text items h
    rw [hraw]
    exact List.sorted_insertionSort itemLe raw
  · intro prev
    unfold importStep
    rw [h]

/-- C7 witness: an out-of-order two-row file imports sorted, independently
of two different previous states. -/
theorem C7_sorted_replace_witness :
    List.Sorted itemLe
      [⟨"a".toList, some 1, some 0⟩, ⟨"b".toList, some 2, some 86400000⟩] ∧
    importStep
      "Name,Calories,Time\nb,2,1970-01-02T00:00:00.000Z\na,1,1970-01-01T00:00:00.000Z".toList
      [⟨"z".toList, some 9, some 5⟩]
      = [⟨"a".toList, some 1, some 0⟩, ⟨"b".toList, some 2, some 86400000⟩] ∧
    importStep
      "Name,Calories,Time\nb,2,1970-01-02T00:00:00.000Z\na,1,1970-01-01T00:00:00.000Z".toList
      []
      = [⟨"a".toList, some 1, some 0⟩, ⟨"b".toList, some 2, some 86400000⟩] := by
  have h := C7_sorted_replace
    "Name,Calories,Time\nb,2,1970-01-02T00:00:00.000Z\na,1,1970-01-01T00:00:00.000Z".toList
    [⟨"a".toList, some 1, some 0⟩, ⟨"b".toList, some 2, some 86400000⟩]
    (by decide)
  exact ⟨h.1, h.2 _, h.2 _⟩

/-- C8: import is atomic: on any input on which it fails, the previous
entry list is returned unchanged; the list is only replaced on success. -/
theorem C8_atomic (text : List Char) (prev : List CalorieItem) (e : List Char)
    (h : importModel text = .error e) : importStep text prev = prev := by
  unfold importStep
  rw [h]

/-- C8 witness: a file with no data row fails and leaves the state alone. -/
theorem C8_atomic_witness :
    importModel "x".toList = .error errRows ∧
    importStep "x".toList [⟨"keep".toList, some 7, some 3⟩]
      = [⟨"keep".toList, some 7, some 3⟩] := by
  have h1 : importModel "x".toList = .error errRows := by decide
  exact ⟨h1, C8_atomic "x".toList _ errRows h1⟩

theorem importRows_cons (row : List (List Char)) (rest : List (List (List Char)))
    (i nIdx cIdx tIdx : Nat) :
    importRows (row :: rest) i nIdx cIdx tIdx =
      if rowIsBlank row then importRows rest (i + 1) nIdx cIdx tIdx
      else
        match jsParseInt (trimL (row.getD cIdx [])) with
        | none => .error (errCalories (i + 1) (trimL (row.getD cIdx [])))
        | some cal =>
          match parseISO (trimL (row.getD tIdx [])) with
          | none => .error (errTime (i + 1) (trimL (row.getD tIdx [])))
          | some ts =>
            (importRows rest (i + 1) nIdx cIdx tIdx).map
              (fun items =>
                ⟨if (trimL (row.getD nIdx [])).isEmpty then unnamedItem
                  else trimL (row.getD nIdx []), some cal, some ts⟩ :: items) := rfl

/-- C10: a data row with fewer fields than a column index is never rejected
for its field count and causes no out-of-bounds access: each missing cell
reads as the empty string, so a missing name defaults to `"Unnamed Item"`
while a missing calories or time cell fails with that row's invalid-value
`FormatError` (with an empty raw value). -/
theorem C10_missing_cells (row : List (List Char)) (rest : List (List (List Char)))
    (i nIdx cIdx tIdx : Nat) (hblank : rowIsBlank row = false) :
    (row.length ≤ cIdx → importRows (row :: rest) i nIdx cIdx tIdx
        = .error (errCalories (i + 1) [])) ∧
    (∀ cal, jsParseInt (trimL (row.getD cIdx [])) = some cal →
      row.length ≤ tIdx → importRows (row :: rest) i nIdx cIdx tIdx
        = .error (errTime (i + 1) [])) ∧
    (∀ cal ts, jsParseInt (trimL (row.getD cIdx [])) = some cal →
      parseISO (trimL (row.getD tIdx [])) = some ts →
      row.length ≤ nIdx →
      importRows (row :: rest) i nIdx cIdx tIdx =
        (importRows rest (i + 1) nIdx cIdx tIdx).map
          (fun items => ⟨unnamedItem, some cal, some ts⟩ :: items)) := by
  refine ⟨?_, ?_, ?_⟩
  · intro hlen
    rw [importRows_cons, if_neg (by simp [hblank]), List.getD_eq_default _ _ hlen]
    rfl
  · intro cal hcal hlen
    rw [importRows_cons, if_neg (by simp [hblank])]
    simp only [hcal]
    rw [List.getD_eq_default _ _ hlen]
    rfl
  · intro cal ts hcal hts hlen
    rw [importRows_cons, if_neg (by simp [hblank])]
    simp only [hcal, hts]
    rw [List.getD_eq_default _ _ hlen]
    rfl

/-- C10 witness: under header indices `(0,1,2)` a one-cell row fails on its
missing calories cell with an empty raw value; under indices `(2,0,1)`
(header order `Calories,Time,Name`) a two-cell row imports with the default
name. -/
theorem C10_missing_cells_witness :
    importRows [["x".toList]] 1 0 1 2 = .error (errCalories 2 []) ∧
    importRows [["5".toList, "1970-01-01T00:00:00.000Z".toList]] 1 2 0 1 =
      .ok [⟨unnamedItem, some 5, some 0⟩] := by
  constructor
  · exact (C10_missing_cells ["x".toList] [] 1 0 1 2 (by decide)).1 (by decide)
  · have h := (C10_missing_cells ["5".toList, "1970-01-01T00:00:00.000Z".toList] [] 1 2 0 1
      (by decide)).2.2 5 0 (by decide) (by decide) (by decide)
    rw [h]
    rfl

/-- C2 counterexample input: the physically fourth input row has the bad
calories cell `abc`, but the wholly blank second line is silently dropped by
the tokenizer, and the retained second data row fails first on its `Time`
cell — so the import error neither is a calories error nor cites row 4. -/
def c2Text : List Char :=
  "Name,Calories,Time\n\na,1,bad\nb,abc,1970-01-01T00:00:00.000Z".toList

/-- C2 counterexample: on `c2Text` the claim predicts a `FormatError` citing
input row 4 and raw calories value `abc`; the code instead throws the time
error for the earlier retained row, citing row 2. -/
theorem C2_counterexample :
    importModel c2Text = .error (errTime 2 "bad".toList) ∧
    importModel c2Text ≠ .error (errCalories 4 "abc".toList) := by
  constructor
  · decide
  · decide

/-- C2 as amended: scanning the tokenizer's retained rows in order (fully
blank rows are skipped; wholly blank input lines were already dropped by the
tokenizer and so shift the numbering), a non-blank row whose calories cell
does not parse as a finite integer stops the import with the calories
`FormatError` citing the 1-based position of the row in the retained list
and the raw cell value; a row whose calories cell does parse is never
rejected for calories — time is validated after calories, and a fully valid
row is accepted. -/
theorem C2_calories_error (row : List (List Char)) (rest : List (List (List Char)))
    (i nIdx cIdx tIdx : Nat) :
    (rowIsBlank row = true →
      importRows (row :: rest) i nIdx cIdx tIdx = importRows rest (i + 1) nIdx cIdx tIdx) ∧
    (rowIsBlank row = false → jsParseInt (trimL (row.getD cIdx [])) = none →
      importRows (row :: rest) i nIdx cIdx tIdx
        = .error (errCalories (i + 1) (trimL (row.getD cIdx [])))) ∧
    (rowIsBlank row = false → ∀ cal, jsParseInt (trimL (row.getD cIdx [])) = some cal →
      (∀ ts, parseISO (trimL (row.getD tIdx [])) = some ts →
        importRows (row :: rest) i nIdx cIdx tIdx =
          (importRows rest (i + 1) nIdx cIdx tIdx).map
            (fun items =>
              ⟨if (trimL (row.getD nIdx [])).isEmpty then unnamedItem
                else trimL (row.getD nIdx []), some cal, some ts⟩ :: items)) ∧
      (parseISO (trimL (row.getD tIdx [])) = none →
        importRows (row :: rest) i nIdx cIdx tIdx
          = .error (errTime (i + 1) (trimL (row.getD tIdx []))))) ∧
    (∀ (text : List Char) (r0 : List (List Char)) (drest : List (List (List Char))),
      parseCsv text = r0 :: row :: drest →
      (headerOf r0).findIdx? (· == "name".toList) = some nIdx →
      (headerOf r0).findIdx? (· == "calories".toList) = some cIdx →
      (headerOf r0).findIdx? (· == "time".toList) = some tIdx →
      ∀ e, importRows (row :: drest) 1 nIdx cIdx tIdx = .error e →
      importModel text = .error e) := by
  refine ⟨?_, ?_, ?_, ?_⟩
  · intro hblank
    rw [importRows_cons, if_pos hblank]
  · intro hblank hcal
    rw [importRows_cons, if_neg (by simp [hblank])]
    simp only [hcal]
  · intro hblank cal hcal
    constructor
    · intro ts hts
      rw [importRows_cons, if_neg (by simp [hblank])]
      simp only [hcal, hts]
    · intro hts
      rw [importRows_cons, if_neg (by simp [hblank])]
      simp only [hcal, hts]
  · intro text r0 drest hparse h1 h2 h3 e herr
    unfold importModel
    rw [hparse]
    simp only [h1, h2, h3, herr]
    rfl

/-- C2 witness: a bad calories cell `xy` on the first data row yields the
calories error citing row 2 and the raw value; a row whose calories cell
parses is accepted — here with a date-only time cell, which standard date
parsing admits. -/
theorem C2_calories_error_witness :
    importRows [["a".toList, "xy".toList, "t".toList]] 1 0 1 2
      = .error (errCalories 2 "xy".toList) ∧
    importRows [["a".toList, "5".toList, "1970-01-02".toList]] 1 0 1 2
      = .ok [⟨"a".toList, some 5, some 86400000⟩] := by
  constructor
  · have h := (C2_calories_error ["a".toList, "xy".toList, "t".toList] [] 1 0 1 2).2.1
      (by decide) (by decide)
    rw [h]
    decide
  · have h := ((C2_calories_error ["a".toList, "5".toList, "1970-01-02".toList] [] 1 0 1 2
      ).2.2.1 (by decide) 5 (by decide)).1 86400000 (by decide)
    rw [h]
    decide

/-- An entry with a finite (non-NaN) calorie value and timestamp. -/
def entryFinite (e : CalorieItem) : Prop :=
  e.calories.isSome = true ∧ e.timestamp.isSome = true

instance : DecidablePred entryFinite := fun e =>
  inferInstanceAs (Decidable (_ ∧ _))

/-- Modelled from the spec: a valid HTML number-input value (an optional
minus sign, a non-empty integer part, an optional fraction and an optional
signed exponent) — the only non-empty strings `<input type="number">` can
hand to `addItem` through its sanitized `value` (invalid intermediate input
surfaces as the empty string, which `addItem` rejects). -/
def isValidFloatStr (s : List Char) : Bool :=
  let s1 := if s.head? = some '-' then s.tail else s
  let ds := s1.takeWhile Char.isDigit
  let r1 := s1.drop ds.length
  if ds.isEmpty then false
  else
    let r3opt : Option (List Char) :=
      if r1.head? = some '.' then
        let fs := r1.tail.takeWhile Char.isDigit
        if fs.isEmpty then none else some (r1.tail.drop fs.length)
      else some r1
    match r3opt with
    | none => false
    | some [] => true
    | some (e :: r4) =>
      if e = 'e' ∨ e = 'E' then
        let r5 := if r4.head? = some '+' ∨ r4.head? = some '-' then r4.tail else r4
        let es := r5.takeWhile Char.isDigit
        (!es.isEmpty) && (r5.drop es.length).isEmpty
      else false

theorem map_sortItems_eq (ex : Except (List Char) (List CalorieItem))
    (items : List CalorieItem) (h : ex.map sortItems = .ok items) :
    ∃ raw, ex = .ok raw ∧ items = sortItems raw := by
  cases ex with
  | error err => simp [Except.map] at h
  | ok raw =>
    simp only [Except.map, Except.ok.injEq] at h
    exact ⟨raw, rfl, h.symm⟩

theorem importRows_finite :
    ∀ (rows : List (List (List Char))) (i nIdx cIdx tIdx : Nat)
      (items : List CalorieItem),
      importRows rows i nIdx cIdx tIdx = .ok items → ∀ e ∈ items, entryFinite e := by
  intro rows
  induction rows with
  | nil =>
    intro i nIdx cIdx tIdx items h e he
    simp only [importRows, Except.ok.injEq] at h
    rw [← h] at he
    simp at he
  | cons row rest ih =>
    intro i nIdx cIdx tIdx items h e he
    rw [importRows_cons] at h
    by_cases hblank : rowIsBlank row
    · rw [if_pos hblank] at h
      exact ih (i + 1) nIdx cIdx tIdx items h e he
    · rw [if_neg hblank] at h
      match hcal : jsParseInt (trimL (row.getD cIdx [])) with
      | none => rw [hcal] at h; exact absurd h (by simp)
      | some cal =>
        rw [hcal] at h
        match hts : parseISO (trimL (row.getD tIdx [])) with
        | none => rw [hts] at h; exact absurd h (by simp)
        | some ts =>
          rw [hts] at h
          match hrest : importRows rest (i + 1) nIdx cIdx tIdx with
          | .error err => rw [hrest] at h; exact absurd h (by simp [Except.map])
          | .ok tailItems =>
            rw [hrest] at h
            simp only [Except.map, Except.ok.injEq] at h
            rw [← h] at he
            rcases List.mem_cons.1 he with hh | hh
            · rw [hh]
              exact ⟨rfl, rfl⟩
            · exact ih (i + 1) nIdx cIdx tIdx tailItems hrest e hh

/-- C3: the add-item guard admits a non-finite entry, refuting the
invariant for `addItem`: `1` followed by 309 zeros is a sanitized
number-input value (`isValidFloatStr`), yet its value `10^309` exceeds the
double range, so `parseInt` of it is `Infinity` (non-finite, `none`), and
`addItem` — which rejects only the empty string — appends the non-finite
entry to the list.  (`removeItem` and successful imports do preserve the
invariant: see `importRows_finite`.) -/
theorem C3_addItem_overflow :
    isValidFloatStr ('1' :: List.replicate 309 '0') = true ∧
    jsParseInt ('1' :: List.replicate 309 '0') = none ∧
    addItemModel "x".toList ('1' :: List.replicate 309 '0') 0 []
      = [⟨"x".toList, none, some 0⟩] ∧
    ¬ entryFinite ⟨"x".toList, none, some 0⟩ := by
  exact ⟨by decide, by decide, by decide, by decide⟩

theorem importRows_serialized :
    ∀ (es : List CalorieItem) (i : Nat),
      (∀ e ∈ es, entryFinite e) →
      (∀ e ∈ es, (e.calories.getD 0).natAbs < 10 ^ 21) →
      (∀ e ∈ es, tsClipped (e.timestamp.getD 0)) →
      (∀ e ∈ es, trimL e.name = e.name ∧ e.name ≠ []) →
      importRows (es.map (fun it => [it.name, jsNumToString it.calories,
        toISO (it.timestamp.getD 0)])) i 0 1 2 = .ok es := by
  intro es
  induction es with
  | nil => intro i _ _ _ _; rfl
  | cons it rest ih =>
    intro i hfin hcal hts hname
    obtain ⟨hcs, htss⟩ := hfin it (by simp)
    obtain ⟨z, hz⟩ := Option.isSome_iff_exists.1 hcs
    obtain ⟨t, ht⟩ := Option.isSome_iff_exists.1 htss
    obtain ⟨hntrim, hnne⟩ := hname it (by simp)
    have hzb : z.natAbs < 10 ^ 21 := by
      have := hcal it (by simp)
      rwa [hz] at this
    have htr : tsClipped t := by
      have := hts it (by simp)
      rwa [ht] at this
    have hnum : jsNumToString it.calories = intToString z := by
      rw [hz]
      show (if z.natAbs < 10 ^ 21 then intToString z else _) = intToString z
      rw [if_pos hzb]
    simp only [List.map_cons]
    rw [importRows_cons]
    have hblank : rowIsBlank [it.name, jsNumToString it.calories,
        toISO (it.timestamp.getD 0)] = false := by
      unfold rowIsBlank
      simp only [List.all_cons, Bool.and_eq_false_iff]
      left
      rw [hntrim]
      cases hn : it.name with
      | nil => exact absurd hn hnne
      | cons c cs => simp
    rw [if_neg (by simp [hblank])]
    have hgetc : ([it.name, jsNumToString it.calories,
        toISO (it.timestamp.getD 0)] : List (List Char)).getD 1 [] =
        intToString z := hnum
    have hgett : ([it.name, jsNumToString it.calories,
        toISO (it.timestamp.getD 0)] : List (List Char)).getD 2 [] = toISO t := by
      rw [ht]
      rfl
    have hgetn : ([it.name, jsNumToString it.calories,
        toISO (it.timestamp.getD 0)] : List (List Char)).getD 0 [] = it.name := rfl
    rw [hgetc, hgett, hgetn, trimL_eq_self_of_no_ws (intToString_no_ws z),
      trimL_eq_self_of_no_ws (toISO_no_ws t),
      jsParseInt_intToString z (Nat.lt_trans hzb pow21_lt_overflow),
      parseISO_toISO t htr, hntrim]
    have hnemp : it.name.isEmpty = false := by
      cases hn : it.name with
      | nil => exact absurd hn hnne
      | cons c cs => rfl
    rw [if_neg (by simp [hnemp]), ih (i + 1) (fun e he => hfin e (by simp [he]))
      (fun e he => hcal e (by simp [he]))
      (fun e he => hts e (by simp [he])) (fun e he => hname e (by simp [he]))]
    show Except.ok (⟨it.name, some z, some t⟩ :: rest) = _
    rw [← hz, ← ht]

/-- C1 counterexample input: a non-empty entry list that is not sorted by
timestamp and whose first name carries a leading space. -/
def c1Entries : List CalorieItem :=
  [⟨" b".toList, some 5, some 86400000⟩, ⟨"a".toList, some 3, some 0⟩]

/-- C1 counterexample input: a sorted, trimmed, finite, TimeClipped entry
whose calorie value `10^21` serializes in exponential notation. -/
def c1Overflow : List CalorieItem := [⟨"c".toList, some (10 ^ 21), some 0⟩]

/-- C1 counterexample: parsing the serialized CSV of `c1Entries` does not
return `c1Entries` — the import sorts by timestamp and trims the name — so
`Parse(Serialize(entries)) = entries` fails for this non-empty list.  And
`c1Overflow` fails even sorted and trimmed: `String(10^21)` is `1e+21`,
which `parseInt` re-reads as its leading digit run `1`. -/
theorem C1_counterexample :
    (importModel (serializeModel c1Entries) ≠ .ok c1Entries ∧
      importModel (serializeModel c1Entries) =
        .ok [⟨"a".toList, some 3, some 0⟩, ⟨"b".toList, some 5, some 86400000⟩]) ∧
    (importModel (serializeModel c1Overflow) ≠ .ok c1Overflow ∧
      importModel (serializeModel c1Overflow) =
        .ok [⟨"c".toList, some 1, some 0⟩]) := by
  exact ⟨⟨by decide, by decide⟩, ⟨by decide, by decide⟩⟩

/-- C1 as amended: for every non-empty entry list that is sorted ascending
by timestamp, whose entries are finite with TimeClipped timestamps and
calorie magnitudes below `10^21` (the exponential-notation threshold), and
whose names are non-empty and carry no leading or trailing whitespace
(commas, double quotes and embedded newlines are fine), parsing the CSV
text produced by serializing the list yields the same list back (ids
excluded: they are never serialized and are regenerated). -/
theorem C1_roundtrip (entries : List CalorieItem)
    (hne : entries ≠ [])
    (hfin : ∀ e ∈ entries, entryFinite e)
    (hcal : ∀ e ∈ entries, (e.calories.getD 0).natAbs < 10 ^ 21)
    (hts : ∀ e ∈ entries, tsClipped (e.timestamp.getD 0))
    (hname : ∀ e ∈ entries, trimL e.name = e.name ∧ e.name ≠ [])
    (hsorted : List.Sorted itemLe entries) :
    importModel (serializeModel entries) = .ok entries := by
  have hrows : parseCsv (serializeModel entries) = exportRows entries := by
    unfold serializeModel
    apply parseCsv_toCsv
    · simp [exportRows]
    · intro r hr
      unfold exportRows at hr
      rcases List.mem_cons.1 hr with h | h
      · exact ⟨_, _, _, h⟩
      · obtain ⟨it, _, hit⟩ := List.mem_map.1 h
        exact ⟨_, _, _, hit.symm⟩
  match entries, hne with
  | e0 :: erest, _ =>
    unfold importModel
    rw [hrows]
    have hshape : exportRows (e0 :: erest) =
        ["Name".toList, "Calories".toList, "Time".toList] ::
          (fun it => [it.name, jsNumToString it.calories, toISO (it.timestamp.getD 0)]) e0 ::
          erest.map (fun it => [it.name, jsNumToString it.calories,
            toISO (it.timestamp.getD 0)]) := by
      simp [exportRows]
    rw [hshape]
    have hn : (headerOf ["Name".toList, "Calories".toList, "Time".toList]).findIdx?
        (· == "name".toList) = some 0 := by decide
    have hc : (headerOf ["Name".toList, "Calories".toList, "Time".toList]).findIdx?
        (· == "calories".toList) = some 1 := by decide
    have ht : (headerOf ["Name".toList, "Calories".toList, "Time".toList]).findIdx?
        (· == "time".toList) = some 2 := by decide
    simp only [hn, hc, ht]
    rw [show ((fun (it : CalorieItem) => [it.name, jsNumToString it.calories,
          toISO (it.timestamp.getD 0)]) e0 ::
        erest.map (fun it => [it.name, jsNumToString it.calories,
          toISO (it.timestamp.getD 0)]))
        = (e0 :: erest).map (fun it => [it.name, jsNumToString it.calories,
          toISO (it.timestamp.getD 0)]) from rfl,
      importRows_serialized (e0 :: erest) 1 hfin hcal hts hname]
    show Except.ok (sortItems (e0 :: erest)) = _
    unfold sortItems
    rw [List.Sorted.insertionSort_eq hsorted]

/-- C1 witness: a singleton list whose name contains a comma, a double
quote and a newline round-trips exactly. -/
theorem C1_roundtrip_witness :
    importModel (serializeModel
      [⟨"pie, \"large\"\nslice".toList, some 400, some 1234567890123⟩]) =
      .ok [⟨"pie, \"large\"\nslice".toList, some 400, some 1234567890123⟩] := by
  apply C1_roundtrip <;> decide
